import Mathlib

/-!
Shallow embedding of the vehicle tracking and counting engine of
`src/core/tracker.py` (class `VehicleTracker`), together with proofs of the
specification claims about it.

Embedding conventions:

* Centroids are integer pixel pairs `ℤ × ℤ`, as in the source
  (`calculate_centroid` truncates to `int`).  Bounding-box coordinates are
  exact rationals `ℚ` standing for the source's floating-point coordinates.
* The source compares Euclidean distances (`(dx*dx+dy*dy) ** 0.5`) against
  thresholds and takes argmins of them.  Since `Real.sqrt` is strictly
  monotone on nonnegative numbers, every such comparison is performed here on
  the exact squared distance (`distSq`, an integer): `√d2 < t` holds iff
  `0 < t` and `d2 < t^2`, which for a rational threshold `t = t.num / t.den`
  is the integer comparison `d2 * t.den^2 < t.num^2`.  The functions
  `sqrtLtQ` and `sqrtLtQ15` (the latter for the source's
  `distance < distance_threshold * 1.5` rediscovery test) implement exactly
  this; `sqrtLtQ_iff_sqrt_lt` below proves the encoding correct against
  `Real.sqrt`.  Argmin tie-breaking is unchanged by squaring because
  squaring preserves the order and equalities of nonnegative distances.
* The float accumulator `total_movement` is represented losslessly as the
  list of squared per-frame displacements (most recent first); the source's
  value is the sum of the square roots of the entries.  An update that "adds
  the movement to `total_movement`" conses the squared displacement.
* `tracked_objects` is an association list in Python dict insertion order:
  registration appends, eviction removes, in-place mutation keeps position.
* `vehicle_counts` is a total function `VClass → ℕ` (the `defaultdict(int)`
  with default 0 over the closed class enumeration).
* `update` is instrumented: besides the new tracker state and the list of
  newly registered ids (the source's return value) it records the pairs
  bound by the greedy matching pass (`matches`), the rediscovery re-bindings
  (`rEvents`) and, through `UpdateResult.countEvents`, one event per count
  increment — exactly the events the source logs at its `print` call.
-/

/-- The closed vehicle class enumeration of `config/constants.py`
(`VEHICLE_CLASSES`). -/
inductive VClass where
  | car
  | motorcycle
  | bus
  | truck
  deriving DecidableEq

/-- One detection handed to `update`: bounding box `(x1, y1, x2, y2)`,
vehicle class and confidence (the tracker never reads the confidence). -/
structure Detection where
  box : ℚ × ℚ × ℚ × ℚ
  cls : VClass
  conf : ℚ
  deriving DecidableEq

/-- Python `int((a + b) / 2)` on exact rational inputs: the exact value
`(a + b) / 2` truncated toward zero.  Written on numerators and denominators
(`(a + b) / 2 = (a.num * b.den + b.num * a.den) / (2 * a.den * b.den)` with a
positive denominator, truncated by T-division `Int.div`) so that it evaluates
by kernel reduction. -/
def truncHalfSum (a b : ℚ) : ℤ :=
  Int.tdiv (a.num * (b.den : ℤ) + b.num * (a.den : ℤ)) (2 * (a.den : ℤ) * (b.den : ℤ))

/-- `VehicleTracker.calculate_centroid`: center point of a bounding box,
truncated to integers. -/
def calculate_centroid (box : ℚ × ℚ × ℚ × ℚ) : ℤ × ℤ :=
  (truncHalfSum box.1 box.2.2.1, truncHalfSum box.2.1 box.2.2.2)

/-- The square of `VehicleTracker.calculate_distance` (Euclidean distance
between two integer points); all distance comparisons are made on this exact
squared value, see the module comment. -/
def distSq (p q : ℤ × ℤ) : ℤ :=
  (p.1 - q.1) ^ 2 + (p.2 - q.2) ^ 2

/-- `√d2 < t` for a nonnegative squared distance `d2` and rational
threshold `t`, computed on integers: `0 < t ∧ d2 < t^2`, i.e.
`0 < t.num ∧ d2 * t.den^2 < t.num^2`. -/
def sqrtLtQ (d2 : ℤ) (t : ℚ) : Bool :=
  decide (0 < t.num) && decide (d2 * (t.den : ℤ) ^ 2 < t.num ^ 2)

/-- `√d2 < t * 1.5` (the source's rediscovery radius
`distance < self.distance_threshold * 1.5`), computed on integers:
`0 < t ∧ d2 < (3/2 * t)^2`, i.e. `0 < t.num ∧ 4 * d2 * t.den^2 < 9 * t.num^2`. -/
def sqrtLtQ15 (d2 : ℤ) (t : ℚ) : Bool :=
  decide (0 < t.num) && decide (4 * (d2 * (t.den : ℤ) ^ 2) < 9 * t.num ^ 2)

/-- For a positive rational `t`, `(t.num : ℚ) = t * t.den`. -/
theorem rat_num_eq_mul_den (t : ℚ) : (t.num : ℚ) = t * (t.den : ℚ) := by
  have hd : ((t.den : ℚ)) ≠ 0 := by
    exact_mod_cast t.den_nz
  have h := div_mul_cancel₀ (t.num : ℚ) hd
  rw [Rat.num_div_den] at h
  exact h.symm

/-- Cross-multiplied form of `d2 < t ^ 2` for `t : ℚ`. -/
theorem ratLtSq_iff (d2 : ℤ) (t : ℚ) :
    (d2 : ℚ) < t ^ 2 ↔ d2 * (t.den : ℤ) ^ 2 < t.num ^ 2 := by
  have hd : (0 : ℚ) < (t.den : ℚ) := by exact_mod_cast t.pos
  have key : ((d2 * (t.den : ℤ) ^ 2 : ℤ) : ℚ) < ((t.num ^ 2 : ℤ) : ℚ) ↔
      d2 * (t.den : ℤ) ^ 2 < t.num ^ 2 := by
    constructor
    · intro h
      exact_mod_cast h
    · intro h
      exact_mod_cast h
  rw [← key]
  push_cast
  rw [rat_num_eq_mul_den t, mul_pow]
  exact (mul_lt_mul_right (by positivity)).symm

/-- Correctness of the squared-distance encoding: `sqrtLtQ d2 t` decides
`Real.sqrt d2 < t`. -/
theorem sqrtLtQ_iff_sqrt_lt (d2 : ℤ) (t : ℚ) :
    sqrtLtQ d2 t = true ↔ Real.sqrt (d2 : ℝ) < (t : ℝ) := by
  unfold sqrtLtQ
  rcases le_or_lt t 0 with ht | ht
  · have h1 : ¬ (0 < t.num) := by
      simpa [Rat.num_pos] using not_lt.mpr ht
    have h2 : ¬ Real.sqrt (d2 : ℝ) < (t : ℝ) := by
      have := Real.sqrt_nonneg (d2 : ℝ)
      have ht' : (t : ℝ) ≤ 0 := by exact_mod_cast ht
      linarith
    simp [h1, h2]
  · have hnum : 0 < t.num := Rat.num_pos.mpr ht
    have htR : (0 : ℝ) < (t : ℝ) := by exact_mod_cast ht
    rw [Real.sqrt_lt' htR]
    constructor
    · intro hb
      have hb2 : d2 * (t.den : ℤ) ^ 2 < t.num ^ 2 := by
        simpa [hnum] using hb
      have h1 : (d2 : ℚ) < t ^ 2 := (ratLtSq_iff d2 t).mpr hb2
      have h2 : ((d2 : ℤ) : ℝ) < ((t : ℚ) : ℝ) ^ 2 := by exact_mod_cast h1
      simpa using h2
    · intro hb
      have h1 : (d2 : ℚ) < t ^ 2 := by exact_mod_cast hb
      simp [hnum, (ratLtSq_iff d2 t).mp h1]

/-- Cross-multiplied form of `d2 < (t * (3/2)) ^ 2` for `t : ℚ`. -/
theorem ratLtSq15_iff (d2 : ℤ) (t : ℚ) :
    (d2 : ℚ) < (t * (3 / 2)) ^ 2 ↔ 4 * (d2 * (t.den : ℤ) ^ 2) < 9 * t.num ^ 2 := by
  have hd : (0 : ℚ) < (t.den : ℚ) := by exact_mod_cast t.pos
  have key : ((4 * (d2 * (t.den : ℤ) ^ 2) : ℤ) : ℚ) < ((9 * t.num ^ 2 : ℤ) : ℚ) ↔
      4 * (d2 * (t.den : ℤ) ^ 2) < 9 * t.num ^ 2 := by
    constructor
    · intro h
      exact_mod_cast h
    · intro h
      exact_mod_cast h
  rw [← key]
  push_cast
  rw [rat_num_eq_mul_den t]
  have hc : (0 : ℚ) < 4 * (t.den : ℚ) ^ 2 := by positivity
  constructor
  · intro h
    nlinarith [mul_lt_mul_of_pos_right h hc]
  · intro h
    nlinarith [h, hc]

/-- Correctness of the squared-distance encoding of the rediscovery radius:
`sqrtLtQ15 d2 t` decides `Real.sqrt d2 < t * 1.5`. -/
theorem sqrtLtQ15_iff_sqrt_lt (d2 : ℤ) (t : ℚ) :
    sqrtLtQ15 d2 t = true ↔ Real.sqrt (d2 : ℝ) < (t : ℝ) * (3 / 2) := by
  unfold sqrtLtQ15
  rcases le_or_lt t 0 with ht | ht
  · have h1 : ¬ (0 < t.num) := by
      simpa [Rat.num_pos] using not_lt.mpr ht
    have h2 : ¬ Real.sqrt (d2 : ℝ) < (t : ℝ) * (3 / 2) := by
      have := Real.sqrt_nonneg (d2 : ℝ)
      have ht' : (t : ℝ) ≤ 0 := by exact_mod_cast ht
      nlinarith
    simp [h1, h2]
  · have hnum : 0 < t.num := Rat.num_pos.mpr ht
    have htR : (0 : ℝ) < (t : ℝ) * (3 / 2) := by
      have : (0 : ℝ) < (t : ℝ) := by exact_mod_cast ht
      linarith
    rw [Real.sqrt_lt' htR]
    have hcast : (((t * (3 / 2) : ℚ)) : ℝ) = (t : ℝ) * (3 / 2) := by push_cast; ring
    constructor
    · intro hb
      have hb2 : 4 * (d2 * (t.den : ℤ) ^ 2) < 9 * t.num ^ 2 := by
        simpa [hnum] using hb
      have h1 : (d2 : ℚ) < (t * (3 / 2)) ^ 2 := (ratLtSq15_iff d2 t).mpr hb2
      have h2 : ((d2 : ℤ) : ℝ) < (((t * (3 / 2) : ℚ)) : ℝ) ^ 2 := by exact_mod_cast h1
      rw [hcast] at h2
      simpa using h2
    · intro hb
      have h1 : (d2 : ℚ) < (t * (3 / 2)) ^ 2 := by
        have h2 : ((d2 : ℤ) : ℝ) < (((t * (3 / 2) : ℚ)) : ℝ) ^ 2 := by
          rw [hcast]
          simpa using hb
        exact_mod_cast h2
      simp [hnum, (ratLtSq15_iff d2 t).mp h1]

/-- The per-identity record stored in `VehicleTracker.tracked_objects`
(the dictionary literal built in `_register_new_objects` and mutated in
`_match_and_update`).  `total_movement` is the list of squared per-frame
displacements (see the module comment). -/
structure TrackedObject where
  centroid : ℤ × ℤ
  disappeared : ℕ
  cls : VClass
  counted : Bool
  stationary_frames : ℕ
  is_parked : Bool
  total_movement : List ℤ
  has_moved : Bool
  deriving DecidableEq

/-- The tracker state.  The thresholds are the configuration values the
source stores on the instance in `__init__` / `set_scaled_parameters`
(`PARKED_THRESHOLD` is included as configuration per spec section 6);
`update` never changes them and `reset` keeps them. -/
structure VehicleTracker where
  tracked_objects : List (ℕ × TrackedObject)
  next_object_id : ℕ
  vehicle_counts : VClass → ℕ
  distance_threshold : ℚ
  movement_threshold : ℚ
  max_disappeared : ℕ
  parked_threshold : ℕ

/-- A freshly constructed tracker (`VehicleTracker.__init__` with the given
configuration values). -/
def VehicleTracker.init (dthr mthr : ℚ) (maxd pthr : ℕ) : VehicleTracker :=
  { tracked_objects := []
    next_object_id := 0
    vehicle_counts := fun _ => 0
    distance_threshold := dthr
    movement_threshold := mthr
    max_disappeared := maxd
    parked_threshold := pthr }

/-- `VehicleTracker.reset`: clears `tracked_objects`, `next_object_id` and
`vehicle_counts`; configuration is untouched. -/
def VehicleTracker.reset (t : VehicleTracker) : VehicleTracker :=
  { t with tracked_objects := [], next_object_id := 0, vehicle_counts := fun _ => 0 }

/-- `vehicle_counts[c] += 1` on the `defaultdict(int)`. -/
def bumpCount (counts : VClass → ℕ) (c : VClass) : VClass → ℕ :=
  fun c2 => if c2 = c then counts c2 + 1 else counts c2

/-- The record a brand-new registration creates (both in
`_register_new_objects` and in the unmatched-detection branch of
`_match_and_update`). -/
def freshObject (cls : VClass) (c : ℤ × ℤ) : TrackedObject :=
  { centroid := c
    disappeared := 0
    cls := cls
    counted := false
    stationary_frames := 0
    is_parked := false
    total_movement := []
    has_moved := false }

/-- Dictionary lookup `tracked_objects[id]` on the association list. -/
def lookupObj (objs : List (ℕ × TrackedObject)) (id : ℕ) : Option TrackedObject :=
  (objs.find? (fun p => p.1 == id)).map (fun p => p.2)

/-- In-place mutation of the entry with key `id` (Python mutates the dict
value through the shared reference; position and keys are unchanged). -/
def updObj (objs : List (ℕ × TrackedObject)) (id : ℕ) (f : TrackedObject → TrackedObject) :
    List (ℕ × TrackedObject) :=
  objs.map (fun p => if p.1 = id then (p.1, f p.2) else p)

/-- `VehicleTracker._register_new_objects`: register every detection
(given as its class and centroid) as a brand-new object; returns the new
tracker and the list of newly assigned ids in order. -/
def registerNewObjects : VehicleTracker → List (VClass × (ℤ × ℤ)) → VehicleTracker × List ℕ
  | t, [] => (t, [])
  | t, dc :: rest =>
    let id := t.next_object_id
    let t2 : VehicleTracker :=
      { t with tracked_objects := t.tracked_objects ++ [(id, freshObject dc.1 dc.2)],
               next_object_id := id + 1 }
    let pr := registerNewObjects t2 rest
    (pr.1, id :: pr.2)

/-- The final parked check of `_match_and_update` (source lines 142-144):
mark as parked when stationary for very long.  Run after either branch of
the stationary/moving test. -/
def parkedCheck (pthr : ℕ) (o : TrackedObject) : TrackedObject :=
  if pthr < o.stationary_frames then { o with is_parked := true } else o

/-- The per-match mutation continued: the stationary/moving branch of
source lines 126-140, each branch followed by the final parked check of
lines 142-144 (`parkedCheck`). -/
def applyMatchObj (mthr : ℚ) (pthr : ℕ) (newC : ℤ × ℤ) (o : TrackedObject) :
    TrackedObject × Bool :=
  let m2 := distSq o.centroid newC
  let o1 : TrackedObject :=
    { o with centroid := newC, disappeared := 0, total_movement := m2 :: o.total_movement }
  if sqrtLtQ m2 mthr then
    (parkedCheck pthr { o1 with stationary_frames := o1.stationary_frames + 1 }, false)
  else if o1.has_moved then
    (parkedCheck pthr { o1 with stationary_frames := 0, is_parked := false }, false)
  else if o1.counted then
    (parkedCheck pthr { o1 with stationary_frames := 0, is_parked := false, has_moved := true },
      false)
  else
    (parkedCheck pthr
      { o1 with stationary_frames := 0, is_parked := false, has_moved := true, counted := true },
      true)

/-- One pair bound by the greedy matching pass: matrix position
(`row` into the tracked objects in stored order, `col` into the detections
in input order), the bound object id, the centroids before and after, the
object's class, and whether this binding incremented the aggregate count. -/
structure MatchRec where
  row : ℕ
  col : ℕ
  oid : ℕ
  oldC : ℤ × ℤ
  newC : ℤ × ℤ
  cls : VClass
  countedNow : Bool
  deriving DecidableEq

/-- State carried through the greedy matching loop of `_match_and_update`. -/
structure GreedyState where
  objs : List (ℕ × TrackedObject)
  counts : VClass → ℕ
  mrecs : List MatchRec

/-- All matrix positions in row-major (C) order, the order in which
`np.argmin` scans the flattened distance matrix. -/
def rowMajor (n m : ℕ) : List (ℕ × ℕ) :=
  (List.range n).flatMap (fun i => (List.range m).map (fun j => (i, j)))

/-- The matrix positions not yet invalidated (rows and columns of already
bound pairs are overwritten with `np.inf` in the source; a masked set is
equivalent because `inf` never wins the argmin while a finite entry
remains, and never passes the threshold test). -/
def freeCells (ms : List MatchRec) (n m : ℕ) : List (ℕ × ℕ) :=
  (rowMajor n m).filter
    (fun ij => !(ms.any (fun mr => mr.row == ij.1)) && !(ms.any (fun mr => mr.col == ij.2)))

/-- The distance-matrix entry at position `ij`: squared distance between the
stored centroid of row `ij.1` and the detection centroid of column `ij.2`. -/
def cellVal (objCents dcents : List (ℤ × ℤ)) (ij : ℕ × ℕ) : ℤ :=
  distSq (objCents.getD ij.1 (0, 0)) (dcents.getD ij.2 (0, 0))

/-- First position attaining the minimum value, scanning in list order
(`np.argmin` returns the first occurrence of the minimum in row-major
order; squaring preserves order and ties of nonnegative distances). -/
def argminCell (cells : List (ℕ × ℕ)) (v : ℕ × ℕ → ℤ) : Option (ℕ × ℕ) :=
  cells.foldl
    (fun acc c =>
      match acc with
      | none => some c
      | some b => if v c < v b then some c else some b)
    none

/-- One iteration of the greedy matching loop (source lines 109-149): find
the globally smallest remaining matrix entry; if it is strictly below the
distance threshold, bind the pair, mutate the object via `applyMatchObj`,
bump the count if the object was counted now, and invalidate the row and
column. -/
def greedyStep (dthr mthr : ℚ) (pthr : ℕ) (objIds : List ℕ)
    (objCents dcents : List (ℤ × ℤ)) (g : GreedyState) : GreedyState :=
  match argminCell (freeCells g.mrecs objIds.length dcents.length) (cellVal objCents dcents) with
  | none => g
  | some ij =>
    if sqrtLtQ (cellVal objCents dcents ij) dthr then
      let oid := objIds.getD ij.1 0
      let newC := dcents.getD ij.2 ((0 : ℤ), (0 : ℤ))
      match lookupObj g.objs oid with
      | none => g
      | some o =>
        let ab := applyMatchObj mthr pthr newC o
        { objs := updObj g.objs oid (fun _ => ab.1)
          counts := if ab.2 then bumpCount g.counts o.cls else g.counts
          mrecs := g.mrecs ++ [{ row := ij.1, col := ij.2, oid := oid,
                                     oldC := o.centroid, newC := newC,
                                     cls := o.cls, countedNow := ab.2 }] }
    else g

/-- The greedy matching loop, run `min (#objects) (#detections)` times. -/
def greedyLoop (dthr mthr : ℚ) (pthr : ℕ) (objIds : List ℕ)
    (objCents dcents : List (ℤ × ℤ)) : ℕ → GreedyState → GreedyState
  | 0, g => g
  | Nat.succ k, g =>
    greedyLoop dthr mthr pthr objIds objCents dcents k
      (greedyStep dthr mthr pthr objIds objCents dcents g)

/-- The unmatched-object pass (source lines 151-156): walk the objects in
stored order with their row index; matched rows are kept as they are, every
other object has `disappeared` incremented and is evicted when the counter
exceeds the max-disappeared threshold. -/
def ageUnmatchedAux (maxd : ℕ) (rows : List ℕ) :
    ℕ → List (ℕ × TrackedObject) → List (ℕ × TrackedObject)
  | _, [] => []
  | i, p :: rest =>
    let rest2 := ageUnmatchedAux maxd rows (i + 1) rest
    if rows.any (fun r => r == i) then p :: rest2
    else if maxd < p.2.disappeared + 1 then rest2
    else (p.1, { p.2 with disappeared := p.2.disappeared + 1 }) :: rest2

/-- The rediscovery qualification test of source line 164-166: currently
disappeared, not yet evicted, and within 1.5 times the distance threshold
of the detection centroid. -/
def qualifiesRedisc (dthr : ℚ) (maxd : ℕ) (c : ℤ × ℤ) (o : TrackedObject) : Bool :=
  decide (0 < o.disappeared) && decide (o.disappeared ≤ maxd) &&
    sqrtLtQ15 (distSq o.centroid c) dthr

/-- The rediscovery scan (source lines 163-170): first object in iteration
order that qualifies, if any. -/
def findRediscovery (dthr : ℚ) (maxd : ℕ) (c : ℤ × ℤ)
    (objs : List (ℕ × TrackedObject)) : Option ℕ :=
  (objs.find? (fun p => qualifiesRedisc dthr maxd c p.2)).map (fun p => p.1)

/-- State carried through the unmatched-detection pass. -/
structure TailState where
  objs : List (ℕ × TrackedObject)
  nextId : ℕ
  newIds : List ℕ
  rEvents : List (ℕ × ℕ)

/-- Handling of one unmatched detection (source lines 161-184): re-bind the
first qualifying disappeared object if there is one (recording the
rediscovery as `(detection index, object id)`), otherwise register a
brand-new object. -/
def unmatchedDetStep (dthr : ℚ) (maxd : ℕ) (i : ℕ) (cls : VClass) (c : ℤ × ℤ)
    (s : TailState) : TailState :=
  match findRediscovery dthr maxd c s.objs with
  | some oid =>
    { s with objs := updObj s.objs oid (fun o => { o with centroid := c, disappeared := 0 }),
             rEvents := s.rEvents ++ [(i, oid)] }
  | none =>
    { s with objs := s.objs ++ [(s.nextId, freshObject cls c)],
             nextId := s.nextId + 1,
             newIds := s.newIds ++ [s.nextId] }

/-- The unmatched-detection pass (source lines 159-184): walk the detections
(given as class/centroid pairs) with their column index, skipping matched
columns. -/
def processUnmatchedAux (dthr : ℚ) (maxd : ℕ) (cols : List ℕ) :
    ℕ → List (VClass × (ℤ × ℤ)) → TailState → TailState
  | _, [], s => s
  | i, dc :: rest, s =>
    let s2 := if cols.any (fun cj => cj == i) then s
              else unmatchedDetStep dthr maxd i dc.1 dc.2 s
    processUnmatchedAux dthr maxd cols (i + 1) rest s2

/-- The instrumented result of one `update` call: the new tracker state, the
source's return value `new_objects`, and the recorded greedy matches and
rediscovery re-bindings. -/
structure UpdateResult where
  tracker : VehicleTracker
  new_objects : List ℕ
  mrecs : List MatchRec
  rEvents : List (ℕ × ℕ)

/-- The count-increment events of one `update` call, `(id, class)` per
increment, in order — exactly what the source logs at its `print` call. -/
def UpdateResult.countEvents (r : UpdateResult) : List (ℕ × VClass) :=
  (r.mrecs.filter (fun m => m.countedNow)).map (fun m => (m.oid, m.cls))

/-- `VehicleTracker._match_and_update`: greedy matching, ageing/eviction of
unmatched objects, then rediscovery or registration of unmatched
detections. -/
def matchAndUpdate (t : VehicleTracker) (dets : List Detection)
    (dcents : List (ℤ × ℤ)) : UpdateResult :=
  let objIds := t.tracked_objects.map (fun p => p.1)
  let objCents := t.tracked_objects.map (fun p => p.2.centroid)
  let g0 : GreedyState :=
    { objs := t.tracked_objects, counts := t.vehicle_counts, mrecs := [] }
  let g := greedyLoop t.distance_threshold t.movement_threshold t.parked_threshold
    objIds objCents dcents (min objIds.length dcents.length) g0
  let aged := ageUnmatchedAux t.max_disappeared (g.mrecs.map (fun m => m.row)) 0 g.objs
  let t0 : TailState := { objs := aged, nextId := t.next_object_id, newIds := [], rEvents := [] }
  let tl := processUnmatchedAux t.distance_threshold t.max_disappeared
    (g.mrecs.map (fun m => m.col)) 0 ((dets.map (fun d => d.cls)).zip dcents) t0
  { tracker := { t with tracked_objects := tl.objs,
                        next_object_id := tl.nextId,
                        vehicle_counts := g.counts }
    new_objects := tl.newIds
    mrecs := g.mrecs
    rEvents := tl.rEvents }

/-- `VehicleTracker.update`, instrumented (see `UpdateResult`): the
empty-detections branch ages and evicts; the empty-tracked branch registers
everything; otherwise `_match_and_update` runs. -/
def VehicleTracker.updateFull (t : VehicleTracker) (dets : List Detection) : UpdateResult :=
  match dets with
  | [] =>
    { tracker := { t with tracked_objects := ageUnmatchedAux t.max_disappeared [] 0 t.tracked_objects }
      new_objects := []
      mrecs := []
      rEvents := [] }
  | _ :: _ =>
    let dcents := dets.map (fun d => calculate_centroid d.box)
    if t.tracked_objects.isEmpty then
      let pr := registerNewObjects t ((dets.map (fun d => d.cls)).zip dcents)
      { tracker := pr.1, new_objects := pr.2, mrecs := [], rEvents := [] }
    else
      matchAndUpdate t dets dcents

/-- `VehicleTracker.update` as the source exposes it: the new tracker state
and the list of newly registered ids. -/
def VehicleTracker.update (t : VehicleTracker) (dets : List Detection) :
    VehicleTracker × List ℕ :=
  ((t.updateFull dets).tracker, (t.updateFull dets).new_objects)

/-- `VehicleTracker.get_counts` (as the total function of the closed class
enumeration). -/
def VehicleTracker.get_counts (t : VehicleTracker) : VClass → ℕ :=
  t.vehicle_counts

/-- The closed enumeration of vehicle classes, for summation. -/
def VClass.all : List VClass :=
  [VClass.car, VClass.motorcycle, VClass.bus, VClass.truck]

/-- `VehicleTracker.get_total_count`: sum of the per-class counts. -/
def VehicleTracker.get_total_count (t : VehicleTracker) : ℕ :=
  (VClass.all.map t.vehicle_counts).sum

/-- Run a sequence of `update` calls, collecting every call's instrumented
result in order. -/
def runTrace (t : VehicleTracker) : List (List Detection) → VehicleTracker × List UpdateResult
  | [] => (t, [])
  | ds :: rest =>
    let r := t.updateFull ds
    let pr := runTrace r.tracker rest
    (pr.1, r :: pr.2)

/-- Tracker states reachable from a fresh (or reset) tracker by `update`
calls. -/
inductive TrackerReachable : VehicleTracker → Prop
  | init (dthr mthr : ℚ) (maxd pthr : ℕ) :
      TrackerReachable (VehicleTracker.init dthr mthr maxd pthr)
  | reset (t : VehicleTracker) :
      TrackerReachable t → TrackerReachable t.reset
  | step (t : VehicleTracker) (ds : List Detection) :
      TrackerReachable t → TrackerReachable (t.updateFull ds).tracker

/-- All count-increment events of a trace, in order. -/
def traceCountEvents (rs : List UpdateResult) : List (ℕ × VClass) :=
  (rs.map UpdateResult.countEvents).flatten

/-- Number of count-increment events on behalf of a given id. -/
def histFor (id : ℕ) (evs : List (ℕ × VClass)) : ℕ :=
  (evs.filter (fun e => e.1 == id)).length

/-- Modelled from the spec, section 4.2 step b: repeatedly select the
globally smallest remaining matrix entry among the rows and columns not yet
invalidated; if it is strictly below the distance threshold, bind that
(object, detection) pair and invalidate its row and column; stop after
`min (#objects) (#detections)` rounds or as soon as the smallest remaining
entry is not below the threshold.  Used as the specification side of claim
C3; the source side is `greedyLoop`, which instead runs idle iterations
after the first failed threshold test. -/
def greedySpecAux (dthr : ℚ) (objCents dcents : List (ℤ × ℤ)) :
    ℕ → List (ℕ × ℕ) → List (ℕ × ℕ)
  | 0, acc => acc
  | Nat.succ k, acc =>
    match argminCell
        ((rowMajor objCents.length dcents.length).filter
          (fun ij => !(acc.any (fun p => p.1 == ij.1)) && !(acc.any (fun p => p.2 == ij.2))))
        (cellVal objCents dcents) with
    | none => acc
    | some ij =>
      if sqrtLtQ (cellVal objCents dcents ij) dthr then
        greedySpecAux dthr objCents dcents k (acc ++ [ij])
      else acc

/-- Modelled from the spec: the full greedy selection sequence. -/
def greedySpecPairs (dthr : ℚ) (objCents dcents : List (ℤ × ℤ)) : List (ℕ × ℕ) :=
  greedySpecAux dthr objCents dcents (min objCents.length dcents.length) []

/-- The (row, col) pairs bound by the source's greedy pass. -/
def matchPairs (ms : List MatchRec) : List (ℕ × ℕ) :=
  ms.map (fun m => (m.row, m.col))

theorem lookupObj_nil (id : ℕ) : lookupObj [] id = none := rfl

theorem lookupObj_cons (p : ℕ × TrackedObject) (objs : List (ℕ × TrackedObject)) (id : ℕ) :
    lookupObj (p :: objs) id = if p.1 = id then some p.2 else lookupObj objs id := by
  unfold lookupObj
  rw [List.find?_cons]
  by_cases h : p.1 = id
  · have hb : (p.1 == id) = true := by simp [h]
    simp [hb, h]
  · have hb : (p.1 == id) = false := by simp [h]
    simp [hb, h]

theorem lookupObj_append (a b : List (ℕ × TrackedObject)) (id : ℕ) :
    lookupObj (a ++ b) id =
      match lookupObj a id with
      | some o => some o
      | none => lookupObj b id := by
  induction a with
  | nil => simp [lookupObj_nil]
  | cons p rest ih =>
    rw [List.cons_append, lookupObj_cons, lookupObj_cons]
    by_cases h : p.1 = id
    · simp [h]
    · simp [h, ih]

theorem updObj_nil (id : ℕ) (f : TrackedObject → TrackedObject) : updObj [] id f = [] := rfl

theorem updObj_cons (p : ℕ × TrackedObject) (rest : List (ℕ × TrackedObject)) (id : ℕ)
    (f : TrackedObject → TrackedObject) :
    updObj (p :: rest) id f = (if p.1 = id then (p.1, f p.2) else p) :: updObj rest id f := by
  unfold updObj
  simp only [List.map_cons]

theorem updObj_map_fst (objs : List (ℕ × TrackedObject)) (id : ℕ)
    (f : TrackedObject → TrackedObject) :
    (updObj objs id f).map (fun p => p.1) = objs.map (fun p => p.1) := by
  induction objs with
  | nil => rfl
  | cons p rest ih =>
    rw [updObj_cons]
    by_cases h : p.1 = id
    · simp [h, ih]
    · simp [h, ih]

theorem lookupObj_updObj_self (objs : List (ℕ × TrackedObject)) (id : ℕ)
    (f : TrackedObject → TrackedObject) :
    lookupObj (updObj objs id f) id = (lookupObj objs id).map f := by
  induction objs with
  | nil => rfl
  | cons p rest ih =>
    rw [updObj_cons]
    by_cases h : p.1 = id
    · rw [if_pos h, lookupObj_cons, lookupObj_cons]
      simp [h]
    · rw [if_neg h, lookupObj_cons, lookupObj_cons, if_neg h, if_neg h]
      exact ih

theorem lookupObj_updObj_ne (objs : List (ℕ × TrackedObject)) (id id2 : ℕ)
    (f : TrackedObject → TrackedObject) (h : id2 ≠ id) :
    lookupObj (updObj objs id f) id2 = lookupObj objs id2 := by
  induction objs with
  | nil => rfl
  | cons p rest ih =>
    rw [updObj_cons]
    by_cases hp : p.1 = id
    · rw [if_pos hp, lookupObj_cons, lookupObj_cons]
      have hne : ¬ (p.1 = id2) := by
        rw [hp]
        exact fun hc => h hc.symm
      simp only [hne, if_neg, not_false_iff, ih]
    · rw [if_neg hp, lookupObj_cons, lookupObj_cons]
      by_cases hq : p.1 = id2
      · simp [hq]
      · simp [hq, ih]

theorem updObj_get? (objs : List (ℕ × TrackedObject)) (id : ℕ)
    (f : TrackedObject → TrackedObject) (i : ℕ) :
    (updObj objs id f).get? i =
      (objs.get? i).map (fun p => if p.1 = id then (p.1, f p.2) else p) := by
  unfold updObj
  induction objs generalizing i with
  | nil => simp
  | cons p rest ih =>
    cases i with
    | zero => simp
    | succ j => simp [ih j]

theorem mem_of_lookupObj (objs : List (ℕ × TrackedObject)) (id : ℕ) (o : TrackedObject)
    (h : lookupObj objs id = some o) : (id, o) ∈ objs := by
  induction objs with
  | nil => simp [lookupObj_nil] at h
  | cons p rest ih =>
    obtain ⟨a, b⟩ := p
    rw [lookupObj_cons] at h
    by_cases hp : a = id
    · simp only [hp, if_pos] at h
      cases h
      rw [← hp]
      exact List.mem_cons_self _ _
    · rw [if_neg hp] at h
      exact List.mem_cons_of_mem _ (ih h)

theorem lookupObj_of_mem_nodup (objs : List (ℕ × TrackedObject)) (id : ℕ) (o : TrackedObject)
    (hnd : (objs.map (fun p => p.1)).Nodup) (h : (id, o) ∈ objs) :
    lookupObj objs id = some o := by
  induction objs with
  | nil => simp at h
  | cons p rest ih =>
    rw [lookupObj_cons]
    rcases List.mem_cons.mp h with h1 | h1
    · rw [← h1]
      simp
    · have hne : p.1 ≠ id := by
        intro hc
        have hmem : id ∈ rest.map (fun p => p.1) := by
          have : (id, o).1 ∈ rest.map (fun p => p.1) := List.mem_map_of_mem _ h1
          exact this
        rw [List.map_cons, hc] at hnd
        exact (List.nodup_cons.mp hnd).1 hmem
      rw [if_neg hne]
      have hnd2 : (rest.map (fun p => p.1)).Nodup := by
        rw [List.map_cons] at hnd
        exact (List.nodup_cons.mp hnd).2
      exact ih hnd2 h1

theorem lookupObj_isSome_iff (objs : List (ℕ × TrackedObject)) (id : ℕ) :
    (lookupObj objs id).isSome = true ↔ id ∈ objs.map (fun p => p.1) := by
  induction objs with
  | nil => simp [lookupObj_nil]
  | cons p rest ih =>
    rw [lookupObj_cons]
    by_cases h : p.1 = id
    · simp [h]
    · simp only [h, if_neg, not_false_iff, List.map_cons, List.mem_cons]
      rw [ih]
      constructor
      · intro hmem
        right
        exact hmem
      · intro hmem
        rcases hmem with hc | hc
        · exact absurd hc.symm h
        · exact hc

theorem lookupObj_eq_none_iff (objs : List (ℕ × TrackedObject)) (id : ℕ) :
    lookupObj objs id = none ↔ id ∉ objs.map (fun p => p.1) := by
  rw [← lookupObj_isSome_iff]
  cases h : lookupObj objs id
  · simp
  · simp

theorem parkedCheck_centroid (p : ℕ) (o : TrackedObject) :
    (parkedCheck p o).centroid = o.centroid := by
  unfold parkedCheck
  split <;> rfl

theorem parkedCheck_disappeared (p : ℕ) (o : TrackedObject) :
    (parkedCheck p o).disappeared = o.disappeared := by
  unfold parkedCheck
  split <;> rfl

theorem parkedCheck_cls (p : ℕ) (o : TrackedObject) :
    (parkedCheck p o).cls = o.cls := by
  unfold parkedCheck
  split <;> rfl

theorem parkedCheck_counted (p : ℕ) (o : TrackedObject) :
    (parkedCheck p o).counted = o.counted := by
  unfold parkedCheck
  split <;> rfl

theorem parkedCheck_total_movement (p : ℕ) (o : TrackedObject) :
    (parkedCheck p o).total_movement = o.total_movement := by
  unfold parkedCheck
  split <;> rfl

theorem parkedCheck_has_moved (p : ℕ) (o : TrackedObject) :
    (parkedCheck p o).has_moved = o.has_moved := by
  unfold parkedCheck
  split <;> rfl

theorem parkedCheck_stationary_frames (p : ℕ) (o : TrackedObject) :
    (parkedCheck p o).stationary_frames = o.stationary_frames := by
  unfold parkedCheck
  split <;> rfl

theorem parkedCheck_is_parked (p : ℕ) (o : TrackedObject) :
    (parkedCheck p o).is_parked = (o.is_parked || decide (p < o.stationary_frames)) := by
  unfold parkedCheck
  split
  · next h => simp [h]
  · next h => simp [h]

theorem applyMatchObj_centroid (mthr : ℚ) (pthr : ℕ) (newC : ℤ × ℤ) (o : TrackedObject) :
    (applyMatchObj mthr pthr newC o).1.centroid = newC := by
  unfold applyMatchObj
  by_cases h1 : sqrtLtQ (distSq o.centroid newC) mthr <;>
    by_cases h2 : o.has_moved <;>
      by_cases h3 : o.counted <;>
        simp [h1, h2, h3, parkedCheck_centroid]

theorem applyMatchObj_disappeared (mthr : ℚ) (pthr : ℕ) (newC : ℤ × ℤ) (o : TrackedObject) :
    (applyMatchObj mthr pthr newC o).1.disappeared = 0 := by
  unfold applyMatchObj
  by_cases h1 : sqrtLtQ (distSq o.centroid newC) mthr <;>
    by_cases h2 : o.has_moved <;>
      by_cases h3 : o.counted <;>
        simp [h1, h2, h3, parkedCheck_disappeared]

theorem applyMatchObj_cls (mthr : ℚ) (pthr : ℕ) (newC : ℤ × ℤ) (o : TrackedObject) :
    (applyMatchObj mthr pthr newC o).1.cls = o.cls := by
  unfold applyMatchObj
  by_cases h1 : sqrtLtQ (distSq o.centroid newC) mthr <;>
    by_cases h2 : o.has_moved <;>
      by_cases h3 : o.counted <;>
        simp [h1, h2, h3, parkedCheck_cls]

theorem applyMatchObj_total_movement (mthr : ℚ) (pthr : ℕ) (newC : ℤ × ℤ) (o : TrackedObject) :
    (applyMatchObj mthr pthr newC o).1.total_movement =
      distSq o.centroid newC :: o.total_movement := by
  unfold applyMatchObj
  by_cases h1 : sqrtLtQ (distSq o.centroid newC) mthr <;>
    by_cases h2 : o.has_moved <;>
      by_cases h3 : o.counted <;>
        simp [h1, h2, h3, parkedCheck_total_movement]

theorem applyMatchObj_stationary_frames (mthr : ℚ) (pthr : ℕ) (newC : ℤ × ℤ)
    (o : TrackedObject) :
    (applyMatchObj mthr pthr newC o).1.stationary_frames =
      if sqrtLtQ (distSq o.centroid newC) mthr then o.stationary_frames + 1 else 0 := by
  unfold applyMatchObj
  by_cases h1 : sqrtLtQ (distSq o.centroid newC) mthr <;>
    by_cases h2 : o.has_moved <;>
      by_cases h3 : o.counted <;>
        simp [h1, h2, h3, parkedCheck_stationary_frames]

theorem applyMatchObj_snd (mthr : ℚ) (pthr : ℕ) (newC : ℤ × ℤ) (o : TrackedObject) :
    (applyMatchObj mthr pthr newC o).2 =
      (!(sqrtLtQ (distSq o.centroid newC) mthr) && !o.has_moved && !o.counted) := by
  unfold applyMatchObj
  by_cases h1 : sqrtLtQ (distSq o.centroid newC) mthr <;>
    by_cases h2 : o.has_moved <;>
      by_cases h3 : o.counted <;>
        simp [h1, h2, h3]

theorem applyMatchObj_counted (mthr : ℚ) (pthr : ℕ) (newC : ℤ × ℤ) (o : TrackedObject) :
    (applyMatchObj mthr pthr newC o).1.counted =
      (o.counted || (applyMatchObj mthr pthr newC o).2) := by
  unfold applyMatchObj
  by_cases h1 : sqrtLtQ (distSq o.centroid newC) mthr <;>
    by_cases h2 : o.has_moved <;>
      by_cases h3 : o.counted <;>
        simp [h1, h2, h3, parkedCheck_counted]

theorem applyMatchObj_has_moved (mthr : ℚ) (pthr : ℕ) (newC : ℤ × ℤ) (o : TrackedObject) :
    (applyMatchObj mthr pthr newC o).1.has_moved =
      (o.has_moved || !(sqrtLtQ (distSq o.centroid newC) mthr)) := by
  unfold applyMatchObj
  by_cases h1 : sqrtLtQ (distSq o.centroid newC) mthr <;>
    by_cases h2 : o.has_moved <;>
      by_cases h3 : o.counted <;>
        simp [h1, h2, h3, parkedCheck_has_moved]

theorem applyMatchObj_is_parked_moving (mthr : ℚ) (pthr : ℕ) (newC : ℤ × ℤ)
    (o : TrackedObject) (h : sqrtLtQ (distSq o.centroid newC) mthr = false) :
    (applyMatchObj mthr pthr newC o).1.is_parked = false := by
  unfold applyMatchObj
  by_cases h2 : o.has_moved <;>
    by_cases h3 : o.counted <;>
      simp [h, h2, h3, parkedCheck_is_parked]

theorem applyMatchObj_is_parked_stationary (mthr : ℚ) (pthr : ℕ) (newC : ℤ × ℤ)
    (o : TrackedObject) (h : sqrtLtQ (distSq o.centroid newC) mthr = true) :
    (applyMatchObj mthr pthr newC o).1.is_parked =
      (o.is_parked || decide (pthr < o.stationary_frames + 1)) := by
  unfold applyMatchObj
  simp [h, parkedCheck_is_parked]

theorem applyMatchObj_parked_inv (mthr : ℚ) (pthr : ℕ) (newC : ℤ × ℤ) (o : TrackedObject)
    (hpre : o.is_parked = true → pthr < o.stationary_frames)
    (hpost : (applyMatchObj mthr pthr newC o).1.is_parked = true) :
    pthr < (applyMatchObj mthr pthr newC o).1.stationary_frames := by
  rw [applyMatchObj_stationary_frames]
  by_cases h1 : sqrtLtQ (distSq o.centroid newC) mthr
  · rw [applyMatchObj_is_parked_stationary mthr pthr newC o h1] at hpost
    rw [if_pos h1]
    rcases Bool.or_eq_true_iff.mp hpost with hc | hc
    · exact Nat.lt_succ_of_lt (hpre hc)
    · exact of_decide_eq_true hc
  · rw [applyMatchObj_is_parked_moving mthr pthr newC o
      (Bool.eq_false_iff.mpr (fun hc => h1 hc))] at hpost
    cases hpost

/-- The count-increment events extracted from a list of match records. -/
def matchCountEvents (ms : List MatchRec) : List (ℕ × VClass) :=
  (ms.filter (fun m => m.countedNow)).map (fun m => (m.oid, m.cls))

theorem countEvents_eq_matchCountEvents (r : UpdateResult) :
    r.countEvents = matchCountEvents r.mrecs := rfl

theorem matchCountEvents_append (a b : List MatchRec) :
    matchCountEvents (a ++ b) = matchCountEvents a ++ matchCountEvents b := by
  unfold matchCountEvents
  rw [List.filter_append, List.map_append]

theorem matchCountEvents_singleton (m : MatchRec) :
    matchCountEvents [m] = if m.countedNow then [(m.oid, m.cls)] else [] := by
  unfold matchCountEvents
  by_cases h : m.countedNow
  · simp [List.filter, h]
  · simp [List.filter, h]

theorem argminCell_aux_mem (cells : List (ℕ × ℕ)) (v : ℕ × ℕ → ℤ)
    (acc : Option (ℕ × ℕ)) (c : ℕ × ℕ)
    (h : cells.foldl
      (fun acc c =>
        match acc with
        | none => some c
        | some b => if v c < v b then some c else some b) acc = some c) :
    c ∈ cells ∨ acc = some c := by
  induction cells generalizing acc with
  | nil => right; exact h
  | cons x rest ih =>
    rw [List.foldl_cons] at h
    rcases ih _ h with hm | hm
    · left
      exact List.mem_cons_of_mem _ hm
    · cases acc with
      | none =>
        simp only at hm
        cases hm
        left
        exact List.mem_cons_self _ _
      | some b =>
        simp only at hm
        by_cases hv : v x < v b
        · rw [if_pos hv] at hm
          cases hm
          left
          exact List.mem_cons_self _ _
        · rw [if_neg hv] at hm
          right
          exact hm

theorem argminCell_mem (cells : List (ℕ × ℕ)) (v : ℕ × ℕ → ℤ) (c : ℕ × ℕ)
    (h : argminCell cells v = some c) : c ∈ cells := by
  rcases argminCell_aux_mem cells v none c h with hm | hm
  · exact hm
  · cases hm

theorem mem_rowMajor (n m : ℕ) (ij : ℕ × ℕ) :
    ij ∈ rowMajor n m ↔ ij.1 < n ∧ ij.2 < m := by
  unfold rowMajor
  obtain ⟨i, j⟩ := ij
  simp [List.mem_flatMap, List.mem_range, List.mem_map]

theorem mem_freeCells (ms : List MatchRec) (n m : ℕ) (ij : ℕ × ℕ)
    (h : ij ∈ freeCells ms n m) :
    ij.1 < n ∧ ij.2 < m ∧ (∀ mr ∈ ms, mr.row ≠ ij.1) ∧ (∀ mr ∈ ms, mr.col ≠ ij.2) := by
  unfold freeCells at h
  rcases List.mem_filter.mp h with ⟨hrm, hcond⟩
  rcases (mem_rowMajor n m ij).mp hrm with ⟨h1, h2⟩
  rcases Bool.and_eq_true_iff.mp hcond with ⟨hr, hc⟩
  have hr2 : ∀ mr ∈ ms, ¬ mr.row = ij.1 := by simpa using hr
  have hc2 : ∀ mr ∈ ms, ¬ mr.col = ij.2 := by simpa using hc
  exact ⟨h1, h2, hr2, hc2⟩

theorem greedyLoop_inv (dthr mthr : ℚ) (pthr : ℕ) (objIds : List ℕ)
    (objCents dcents : List (ℤ × ℤ)) (P : GreedyState → Prop)
    (hstep : ∀ g, P g → P (greedyStep dthr mthr pthr objIds objCents dcents g)) :
    ∀ k g, P g → P (greedyLoop dthr mthr pthr objIds objCents dcents k g) := by
  intro k
  induction k with
  | zero => intro g hg; exact hg
  | succ k ih =>
    intro g hg
    exact ih _ (hstep g hg)

theorem bumpCount_eq (counts : VClass → ℕ) (c c2 : VClass) :
    bumpCount counts c c2 = counts c2 + (if c2 = c then 1 else 0) := by
  unfold bumpCount
  by_cases h : c2 = c
  · simp [h]
  · simp [h]

theorem getD_eq_of_get? {α : Type} (l : List α) (i : ℕ) (a d : α)
    (h : l.get? i = some a) : l.getD i d = a := by
  induction l generalizing i with
  | nil => cases h
  | cons x rest ih =>
    cases i with
    | zero =>
      have h2 : some x = some a := h
      cases h2
      rfl
    | succ j =>
      have h2 : rest.get? j = some a := h
      have h3 := ih j h2
      simpa using h3

/-- Loop invariant of the greedy matching pass, relating the running
`GreedyState` to the tracker state `objs0` / `counts0` at the start of
`_match_and_update` and the detection centroids `dcents`. -/
structure GInv (dthr mthr : ℚ) (pthr : ℕ) (objs0 : List (ℕ × TrackedObject))
    (counts0 : VClass → ℕ) (dcents : List (ℤ × ℤ)) (g : GreedyState) : Prop where
  keys_eq : g.objs.map (fun p => p.1) = objs0.map (fun p => p.1)
  rows_lt : ∀ mr ∈ g.mrecs, mr.row < objs0.length
  cols_lt : ∀ mr ∈ g.mrecs, mr.col < dcents.length
  rows_nodup : (g.mrecs.map (fun m => m.row)).Nodup
  cols_nodup : (g.mrecs.map (fun m => m.col)).Nodup
  dist_lt : ∀ mr ∈ g.mrecs, sqrtLtQ (distSq mr.oldC mr.newC) dthr = true
  rec_spec : ∀ mr ∈ g.mrecs, ∃ p : ℕ × TrackedObject,
    objs0.get? mr.row = some p ∧ mr.oid = p.1 ∧ mr.oldC = p.2.centroid ∧
    mr.cls = p.2.cls ∧ mr.newC = dcents.getD mr.col (0, 0) ∧
    mr.countedNow = (applyMatchObj mthr pthr mr.newC p.2).2 ∧
    g.objs.get? mr.row = some (p.1, (applyMatchObj mthr pthr mr.newC p.2).1)
  unmatched_spec : ∀ i, (∀ mr ∈ g.mrecs, mr.row ≠ i) → g.objs.get? i = objs0.get? i
  counts_eq : ∀ c : VClass, g.counts c =
    counts0 c + ((matchCountEvents g.mrecs).filter (fun e => e.2 == c)).length

theorem GInv_initial (dthr mthr : ℚ) (pthr : ℕ) (objs0 : List (ℕ × TrackedObject))
    (counts0 : VClass → ℕ) (dcents : List (ℤ × ℤ)) :
    GInv dthr mthr pthr objs0 counts0 dcents
      { objs := objs0, counts := counts0, mrecs := [] } := by
  refine ⟨rfl, ?_, ?_, ?_, ?_, ?_, ?_, ?_, ?_⟩ <;> simp [matchCountEvents]

theorem GInv_step (dthr mthr : ℚ) (pthr : ℕ) (objs0 : List (ℕ × TrackedObject))
    (counts0 : VClass → ℕ) (dcents : List (ℤ × ℤ))
    (hnd : (objs0.map (fun p => p.1)).Nodup) (g : GreedyState)
    (hg : GInv dthr mthr pthr objs0 counts0 dcents g) :
    GInv dthr mthr pthr objs0 counts0 dcents
      (greedyStep dthr mthr pthr (objs0.map (fun p => p.1))
        (objs0.map (fun p => p.2.centroid)) dcents g) := by
  unfold greedyStep
  cases harg : argminCell
      (freeCells g.mrecs (objs0.map (fun p => p.1)).length dcents.length)
      (cellVal (objs0.map (fun p => p.2.centroid)) dcents) with
  | none => exact hg
  | some ij =>
    simp only []
    by_cases hth : sqrtLtQ (cellVal (objs0.map (fun p => p.2.centroid)) dcents ij) dthr = true
    · rw [if_pos hth]
      have hfree := argminCell_mem _ _ _ harg
      obtain ⟨hi, hj, hrow, hcol⟩ := mem_freeCells _ _ _ _ hfree
      rw [List.length_map] at hi
      obtain ⟨p, hp⟩ : ∃ p, objs0.get? ij.1 = some p := by
        cases hq : objs0.get? ij.1 with
        | none =>
          have := List.get?_eq_none.mp hq
          omega
        | some q => exact ⟨q, rfl⟩
      have hoid : (objs0.map (fun p => p.1)).getD ij.1 0 = p.1 := by
        apply getD_eq_of_get?
        rw [List.get?_map, hp]
        rfl
      have hcent : (objs0.map (fun p => p.2.centroid)).getD ij.1 (0, 0) = p.2.centroid := by
        apply getD_eq_of_get?
        rw [List.get?_map, hp]
        rfl
      have hgobj : g.objs.get? ij.1 = some p := by
        rw [hg.unmatched_spec ij.1 hrow, hp]
      have hkeysnd : (g.objs.map (fun p => p.1)).Nodup := by
        rw [hg.keys_eq]
        exact hnd
      have hlook : lookupObj g.objs p.1 = some p.2 := by
        apply lookupObj_of_mem_nodup _ _ _ hkeysnd
        have := List.get?_mem hgobj
        simpa using this
      rw [hoid, hlook]
      simp only []
      have hlen : g.objs.length = objs0.length := by
        have := congrArg List.length hg.keys_eq
        simpa using this
      have hkey_at : ∀ k q, g.objs.get? k = some q → k < objs0.length → k ≠ ij.1 →
          q.1 ≠ p.1 := by
        intro k q hk hklt hkne hqe
        have h1 : (objs0.map (fun p => p.1)).get? k = some q.1 := by
          rw [← hg.keys_eq, List.get?_map, hk]
          rfl
        have h2 : (objs0.map (fun p => p.1)).get? ij.1 = some p.1 := by
          rw [List.get?_map, hp]
          rfl
        have h3 : (objs0.map (fun p => p.1)).get? k = (objs0.map (fun p => p.1)).get? ij.1 := by
          rw [h1, h2, hqe]
        have h4 : k = ij.1 :=
          List.get?_inj (by rw [List.length_map]; exact hklt) hnd h3
        exact hkne h4
      have hcval : cellVal (objs0.map (fun p => p.2.centroid)) dcents ij =
          distSq p.2.centroid (dcents.getD ij.2 (0, 0)) := by
        unfold cellVal
        rw [hcent]
      refine ⟨?_, ?_, ?_, ?_, ?_, ?_, ?_, ?_, ?_⟩
      · rw [updObj_map_fst]
        exact hg.keys_eq
      · intro mr hmr
        rcases List.mem_append.mp hmr with hmr | hmr
        · exact hg.rows_lt mr hmr
        · rcases List.mem_singleton.mp hmr with rfl
          exact hi
      · intro mr hmr
        rcases List.mem_append.mp hmr with hmr | hmr
        · exact hg.cols_lt mr hmr
        · rcases List.mem_singleton.mp hmr with rfl
          simpa using hj
      · rw [List.map_append]
        rw [List.nodup_append]
        refine ⟨hg.rows_nodup, by simp, ?_⟩
        intro a ha hb
        simp at hb
        rcases List.mem_map.mp ha with ⟨mr, hmr, hmr2⟩
        exact hrow mr hmr (by rw [← hb, ← hmr2])
      · rw [List.map_append]
        rw [List.nodup_append]
        refine ⟨hg.cols_nodup, by simp, ?_⟩
        intro a ha hb
        simp at hb
        rcases List.mem_map.mp ha with ⟨mr, hmr, hmr2⟩
        exact hcol mr hmr (by rw [← hb, ← hmr2])
      · intro mr hmr
        rcases List.mem_append.mp hmr with hmr | hmr
        · exact hg.dist_lt mr hmr
        · rcases List.mem_singleton.mp hmr with rfl
          simp only []
          rw [hcval] at hth
          exact hth
      · intro mr hmr
        rcases List.mem_append.mp hmr with hmr | hmr
        · obtain ⟨q, hq1, hq2, hq3, hq4, hq5, hq6, hq7⟩ := hg.rec_spec mr hmr
          refine ⟨q, hq1, hq2, hq3, hq4, hq5, hq6, ?_⟩
          rw [updObj_get?, hq7]
          have hqne : q.1 ≠ p.1 := by
            apply hkey_at mr.row (q.1, (applyMatchObj mthr pthr mr.newC q.2).1) hq7
            · exact hg.rows_lt mr hmr
            · exact hrow mr hmr
          simp [hqne]
        · rcases List.mem_singleton.mp hmr with rfl
          refine ⟨p, hp, rfl, rfl, rfl, rfl, rfl, ?_⟩
          rw [updObj_get?, hgobj]
          simp
      · intro i hi2
        have hine : ij.1 ≠ i := by
          intro hcon
          exact hi2 _ (List.mem_append_right _ (List.mem_singleton_self _)) (by rw [hcon])
        have hold : ∀ mr ∈ g.mrecs, mr.row ≠ i := by
          intro mr hmr
          exact hi2 mr (List.mem_append_left _ hmr)
        rw [updObj_get?, hg.unmatched_spec i hold]
        cases hq : objs0.get? i with
        | none => rfl
        | some q =>
          have hgq : g.objs.get? i = some q := by
            rw [hg.unmatched_spec i hold, hq]
          have hqne : q.1 ≠ p.1 := by
            obtain ⟨hilt, h5⟩ := List.get?_eq_some.mp hq
            apply hkey_at i q hgq
            · exact hilt
            · exact fun hcon => hine hcon.symm
          simp [hqne]
      · intro c
        rw [matchCountEvents_append, matchCountEvents_singleton]
        by_cases hcn : (applyMatchObj mthr pthr (dcents.getD ij.2 (0, 0)) p.2).2 = true
        · by_cases hc2 : c = p.2.cls
          · simp only [hcn, if_true, List.filter_append]
            rw [bumpCount_eq, hg.counts_eq c]
            simp [hc2]
            omega
          · have hc3 : ¬ (p.2.cls = c) := fun hcon => hc2 hcon.symm
            simp only [hcn, if_true, List.filter_append]
            rw [bumpCount_eq, hg.counts_eq c]
            simp [hc2, hc3]
        · have hcn2 : (applyMatchObj mthr pthr (dcents.getD ij.2 (0, 0)) p.2).2 = false :=
            Bool.eq_false_iff.mpr hcn
          simp only [hcn2, Bool.false_eq_true, if_false, List.filter_append]
          rw [hg.counts_eq c]
          simp
    · rw [if_neg hth]
      exact hg

theorem ageUnmatchedAux_nil (maxd : ℕ) (rows : List ℕ) (i0 : ℕ) :
    ageUnmatchedAux maxd rows i0 [] = [] := rfl

theorem ageUnmatchedAux_cons (maxd : ℕ) (rows : List ℕ) (i0 : ℕ)
    (p : ℕ × TrackedObject) (rest : List (ℕ × TrackedObject)) :
    ageUnmatchedAux maxd rows i0 (p :: rest) =
      if rows.any (fun r => r == i0) then p :: ageUnmatchedAux maxd rows (i0 + 1) rest
      else if maxd < p.2.disappeared + 1 then ageUnmatchedAux maxd rows (i0 + 1) rest
      else (p.1, { p.2 with disappeared := p.2.disappeared + 1 }) ::
        ageUnmatchedAux maxd rows (i0 + 1) rest := rfl

theorem ageUnmatchedAux_keys_sublist (maxd : ℕ) (rows : List ℕ) :
    ∀ (objs : List (ℕ × TrackedObject)) (i0 : ℕ),
    ((ageUnmatchedAux maxd rows i0 objs).map (fun p => p.1)).Sublist
      (objs.map (fun p => p.1)) := by
  intro objs
  induction objs with
  | nil =>
    intro i0
    rw [ageUnmatchedAux_nil]
  | cons p rest ih =>
    intro i0
    rw [ageUnmatchedAux_cons]
    by_cases h1 : rows.any (fun r => r == i0)
    · rw [if_pos h1]
      simpa using List.Sublist.cons₂ p.1 (ih (i0 + 1))
    · rw [if_neg h1]
      by_cases h2 : maxd < p.2.disappeared + 1
      · rw [if_pos h2]
        simpa using List.Sublist.cons p.1 (ih (i0 + 1))
      · rw [if_neg h2]
        simpa using List.Sublist.cons₂ p.1 (ih (i0 + 1))

theorem mem_ageUnmatchedAux (maxd : ℕ) (rows : List ℕ) :
    ∀ (objs : List (ℕ × TrackedObject)) (i0 : ℕ) (q : ℕ × TrackedObject),
    q ∈ ageUnmatchedAux maxd rows i0 objs →
    ∃ j p, objs.get? j = some p ∧ q.1 = p.1 ∧
      ((rows.any (fun r => r == i0 + j) = true ∧ q.2 = p.2) ∨
       (rows.any (fun r => r == i0 + j) = false ∧ p.2.disappeared + 1 ≤ maxd ∧
        q.2 = { p.2 with disappeared := p.2.disappeared + 1 })) := by
  intro objs
  induction objs with
  | nil =>
    intro i0 q hq
    rw [ageUnmatchedAux_nil] at hq
    cases hq
  | cons p rest ih =>
    intro i0 q hq
    rw [ageUnmatchedAux_cons] at hq
    have hshift : ∀ (q2 : ℕ × TrackedObject), q2 ∈ ageUnmatchedAux maxd rows (i0 + 1) rest →
        ∃ j p2, (p :: rest).get? j = some p2 ∧ q2.1 = p2.1 ∧
          ((rows.any (fun r => r == i0 + j) = true ∧ q2.2 = p2.2) ∨
           (rows.any (fun r => r == i0 + j) = false ∧ p2.2.disappeared + 1 ≤ maxd ∧
            q2.2 = { p2.2 with disappeared := p2.2.disappeared + 1 })) := by
      intro q2 hq2
      obtain ⟨j, p2, hj, he, hcase⟩ := ih (i0 + 1) q2 hq2
      refine ⟨j + 1, p2, hj, he, ?_⟩
      have harith : i0 + 1 + j = i0 + (j + 1) := by omega
      rw [harith] at hcase
      exact hcase
    by_cases h1 : rows.any (fun r => r == i0)
    · rw [if_pos h1] at hq
      rcases List.mem_cons.mp hq with hq | hq
      · refine ⟨0, p, rfl, by rw [hq], Or.inl ⟨by simpa using h1, by rw [hq]⟩⟩
      · exact hshift q hq
    · rw [if_neg h1] at hq
      by_cases h2 : maxd < p.2.disappeared + 1
      · rw [if_pos h2] at hq
        exact hshift q hq
      · rw [if_neg h2] at hq
        rcases List.mem_cons.mp hq with hq | hq
        · refine ⟨0, p, rfl, by rw [hq], Or.inr ⟨?_, by omega, by rw [hq]⟩⟩
          have harith : i0 + 0 = i0 := rfl
          rw [harith]
          exact Bool.eq_false_iff.mpr h1
        · exact hshift q hq

theorem ageUnmatchedAux_mem_matched (maxd : ℕ) (rows : List ℕ) :
    ∀ (objs : List (ℕ × TrackedObject)) (i0 j : ℕ) (p : ℕ × TrackedObject),
    objs.get? j = some p → rows.any (fun r => r == i0 + j) = true →
    p ∈ ageUnmatchedAux maxd rows i0 objs := by
  intro objs
  induction objs with
  | nil =>
    intro i0 j p hj
    cases hj
  | cons x rest ih =>
    intro i0 j p hj hrow
    rw [ageUnmatchedAux_cons]
    cases j with
    | zero =>
      have hx : some x = some p := hj
      cases hx
      rw [if_pos (by simpa using hrow)]
      exact List.mem_cons_self _ _
    | succ k =>
      have hj2 : rest.get? k = some p := hj
      have harith : i0 + (k + 1) = i0 + 1 + k := by omega
      rw [harith] at hrow
      have hmem := ih (i0 + 1) k p hj2 hrow
      by_cases h1 : rows.any (fun r => r == i0)
      · rw [if_pos h1]
        exact List.mem_cons_of_mem _ hmem
      · rw [if_neg h1]
        by_cases h2 : maxd < x.2.disappeared + 1
        · rw [if_pos h2]
          exact hmem
        · rw [if_neg h2]
          exact List.mem_cons_of_mem _ hmem

theorem ageUnmatchedAux_mem_survivor (maxd : ℕ) (rows : List ℕ) :
    ∀ (objs : List (ℕ × TrackedObject)) (i0 j : ℕ) (p : ℕ × TrackedObject),
    objs.get? j = some p → rows.any (fun r => r == i0 + j) = false →
    p.2.disappeared + 1 ≤ maxd →
    (p.1, { p.2 with disappeared := p.2.disappeared + 1 }) ∈ ageUnmatchedAux maxd rows i0 objs := by
  intro objs
  induction objs with
  | nil =>
    intro i0 j p hj
    cases hj
  | cons x rest ih =>
    intro i0 j p hj hrow hle
    rw [ageUnmatchedAux_cons]
    cases j with
    | zero =>
      have hx : some x = some p := hj
      cases hx
      have h1 : ¬ (rows.any (fun r => r == i0) = true) := by
        intro hc
        rw [show i0 + 0 = i0 from rfl] at hrow
        rw [hrow] at hc
        cases hc
      rw [if_neg h1, if_neg (by omega)]
      exact List.mem_cons_self _ _
    | succ k =>
      have hj2 : rest.get? k = some p := hj
      have harith : i0 + (k + 1) = i0 + 1 + k := by omega
      rw [harith] at hrow
      have hmem := ih (i0 + 1) k p hj2 hrow hle
      by_cases h1 : rows.any (fun r => r == i0)
      · rw [if_pos h1]
        exact List.mem_cons_of_mem _ hmem
      · rw [if_neg h1]
        by_cases h2 : maxd < x.2.disappeared + 1
        · rw [if_pos h2]
          exact hmem
        · rw [if_neg h2]
          exact List.mem_cons_of_mem _ hmem

theorem zip_get? {α β : Type} (a : List α) (b : List β) :
    ∀ (i : ℕ) (x : α) (y : β), (a.zip b).get? i = some (x, y) →
      a.get? i = some x ∧ b.get? i = some y := by
  induction a generalizing b with
  | nil =>
    intro i x y h
    cases h
  | cons xa ra ih =>
    intro i x y h
    cases b with
    | nil => cases h
    | cons xb rb =>
      cases i with
      | zero =>
        have h2 : some (xa, xb) = some (x, y) := h
        cases h2
        exact ⟨rfl, rfl⟩
      | succ j => exact ih rb j x y h

theorem findRediscovery_none_spec (dthr : ℚ) (maxd : ℕ) (c : ℤ × ℤ)
    (objs : List (ℕ × TrackedObject)) (h : findRediscovery dthr maxd c objs = none) :
    ∀ p ∈ objs, qualifiesRedisc dthr maxd c p.2 = false := by
  unfold findRediscovery at h
  intro p hp
  cases hf : objs.find? (fun p => qualifiesRedisc dthr maxd c p.2) with
  | some q =>
    rw [hf] at h
    cases h
  | none =>
    have := List.find?_eq_none.mp hf p hp
    exact Bool.eq_false_iff.mpr this

theorem findRediscovery_some_spec (dthr : ℚ) (maxd : ℕ) (c : ℤ × ℤ) :
    ∀ (objs : List (ℕ × TrackedObject)) (oid : ℕ),
    findRediscovery dthr maxd c objs = some oid →
    ∃ (pre post : List (ℕ × TrackedObject)) (o : TrackedObject),
      objs = pre ++ (oid, o) :: post ∧ qualifiesRedisc dthr maxd c o = true ∧
      ∀ q ∈ pre, qualifiesRedisc dthr maxd c q.2 = false := by
  intro objs
  induction objs with
  | nil =>
    intro oid h
    cases h
  | cons p rest ih =>
    intro oid h
    unfold findRediscovery at h
    rw [List.find?_cons] at h
    by_cases hq : qualifiesRedisc dthr maxd c p.2 = true
    · rw [hq] at h
      have h2 : some p.1 = some oid := h
      cases h2
      exact ⟨[], rest, p.2, by simp, hq, by simp⟩
    · have hq2 : qualifiesRedisc dthr maxd c p.2 = false := Bool.eq_false_iff.mpr hq
      rw [hq2] at h
      obtain ⟨pre, post, o, he, hqo, hpre⟩ := ih oid h
      refine ⟨p :: pre, post, o, by rw [he]; rfl, hqo, ?_⟩
      intro q hmem
      rcases List.mem_cons.mp hmem with hc | hc
      · rw [hc]
        exact hq2
      · exact hpre q hc

/-- Loop invariant of the unmatched-detection pass, relating the running
`TailState` to the aged object list `A`, the pre-call `next_object_id`
`next0` and the detection class/centroid list `dcs0`. -/
structure TailInv (dthr : ℚ) (maxd : ℕ) (A : List (ℕ × TrackedObject)) (next0 : ℕ)
    (dcs0 : List (VClass × (ℤ × ℤ))) (s : TailState) : Prop where
  keys_eq : s.objs.map (fun p => p.1) = A.map (fun p => p.1) ++ s.newIds
  next_eq : s.nextId = next0 + s.newIds.length
  new_eq : s.newIds = List.range' next0 s.newIds.length
  new_objs : ∀ id ∈ s.newIds, ∃ i dc, dcs0.get? i = some dc ∧
      lookupObj s.objs id = some (freshObject dc.1 dc.2)
  old_objs : ∀ id, id ∈ A.map (fun p => p.1) → (∀ e ∈ s.rEvents, e.2 ≠ id) →
      lookupObj s.objs id = lookupObj A id
  redisc_spec : ∀ e ∈ s.rEvents, ∃ o dc, dcs0.get? e.1 = some dc ∧
      lookupObj A e.2 = some o ∧ 0 < o.disappeared ∧
      qualifiesRedisc dthr maxd dc.2 o = true ∧
      lookupObj s.objs e.2 = some { o with centroid := dc.2, disappeared := 0 }

theorem TailInv_initial (dthr : ℚ) (maxd : ℕ) (A : List (ℕ × TrackedObject)) (next0 : ℕ)
    (dcs0 : List (VClass × (ℤ × ℤ))) :
    TailInv dthr maxd A next0 dcs0
      { objs := A, nextId := next0, newIds := [], rEvents := [] } := by
  refine ⟨by simp, by simp, by simp, by simp, ?_, by simp⟩
  intro id hid hev
  rfl

theorem TailInv_keys_nodup (dthr : ℚ) (maxd : ℕ) (A : List (ℕ × TrackedObject)) (next0 : ℕ)
    (dcs0 : List (VClass × (ℤ × ℤ))) (s : TailState)
    (hndA : (A.map (fun p => p.1)).Nodup)
    (hltA : ∀ id ∈ A.map (fun p => p.1), id < next0)
    (hs : TailInv dthr maxd A next0 dcs0 s) :
    (s.objs.map (fun p => p.1)).Nodup := by
  rw [hs.keys_eq, List.nodup_append]
  refine ⟨hndA, ?_, ?_⟩
  · rw [hs.new_eq]
    exact List.nodup_range' _ _
  · intro id hidA hidN
    have h1 := hltA id hidA
    rw [hs.new_eq] at hidN
    have h2 := (List.mem_range'_1.mp hidN).1
    omega

theorem TailInv_step (dthr : ℚ) (maxd : ℕ) (A : List (ℕ × TrackedObject)) (next0 : ℕ)
    (dcs0 : List (VClass × (ℤ × ℤ)))
    (hndA : (A.map (fun p => p.1)).Nodup)
    (hltA : ∀ id ∈ A.map (fun p => p.1), id < next0)
    (i : ℕ) (cls : VClass) (c : ℤ × ℤ) (s : TailState)
    (hdc : dcs0.get? i = some (cls, c))
    (hs : TailInv dthr maxd A next0 dcs0 s) :
    TailInv dthr maxd A next0 dcs0 (unmatchedDetStep dthr maxd i cls c s) := by
  have hndS := TailInv_keys_nodup dthr maxd A next0 dcs0 s hndA hltA hs
  have hnewlt : ∀ id ∈ s.newIds, id < s.nextId := by
    intro id hid
    rw [hs.new_eq] at hid
    have h2 := (List.mem_range'_1.mp hid).2
    have h3 := hs.next_eq
    omega
  unfold unmatchedDetStep
  cases hfind : findRediscovery dthr maxd c s.objs with
  | some oid =>
    obtain ⟨pre, post, o2, hsplit, hqual, hprefail⟩ :=
      findRediscovery_some_spec dthr maxd c s.objs oid hfind
    have hmem : (oid, o2) ∈ s.objs := by
      rw [hsplit]
      exact List.mem_append_right _ (List.mem_cons_self _ _)
    have hlook : lookupObj s.objs oid = some o2 := lookupObj_of_mem_nodup _ _ _ hndS hmem
    have hdisap : 0 < o2.disappeared := by
      unfold qualifiesRedisc at hqual
      rcases Bool.and_eq_true_iff.mp hqual with ⟨h1, h2⟩
      rcases Bool.and_eq_true_iff.mp h1 with ⟨h3, h4⟩
      exact of_decide_eq_true h3
    have hnotnew : oid ∉ s.newIds := by
      intro hc
      obtain ⟨j, dc, hj, hlook2⟩ := hs.new_objs oid hc
      rw [hlook] at hlook2
      have h2 : o2 = freshObject dc.1 dc.2 := by
        cases hlook2
        rfl
      rw [h2] at hdisap
      cases hdisap
    have hinA : oid ∈ A.map (fun p => p.1) := by
      have h1 : oid ∈ s.objs.map (fun p => p.1) := List.mem_map_of_mem _ hmem
      rw [hs.keys_eq] at h1
      rcases List.mem_append.mp h1 with h2 | h2
      · exact h2
      · exact absurd h2 hnotnew
    have hnoev : ∀ e ∈ s.rEvents, e.2 ≠ oid := by
      intro e hev hc
      obtain ⟨o3, dc, hj, hA3, hd3, hq3, hlook3⟩ := hs.redisc_spec e hev
      rw [hc, hlook] at hlook3
      have h4 : o2 = { o3 with centroid := dc.2, disappeared := 0 } := by
        cases hlook3
        rfl
      rw [h4] at hdisap
      cases hdisap
    have hlookA : lookupObj A oid = some o2 := by
      rw [← hs.old_objs oid hinA hnoev]
      exact hlook
    refine ⟨?_, ?_, ?_, ?_, ?_, ?_⟩
    · rw [updObj_map_fst]
      exact hs.keys_eq
    · exact hs.next_eq
    · exact hs.new_eq
    · intro id hid
      obtain ⟨j, dc, hj, hlook2⟩ := hs.new_objs id hid
      refine ⟨j, dc, hj, ?_⟩
      have hne : id ≠ oid := by
        intro hc
        rw [hc] at hid
        exact hnotnew hid
      rw [lookupObj_updObj_ne _ _ _ _ hne]
      exact hlook2
    · intro id hidA hev
      have hne : id ≠ oid := by
        intro hc
        exact hev (i, oid) (List.mem_append_right _ (List.mem_singleton_self _)) (by rw [hc])
      rw [lookupObj_updObj_ne _ _ _ _ hne]
      exact hs.old_objs id hidA (fun e he => hev e (List.mem_append_left _ he))
    · intro e hev
      rcases List.mem_append.mp hev with hev | hev
      · obtain ⟨o3, dc, hj, hA3, hd3, hq3, hlook3⟩ := hs.redisc_spec e hev
        refine ⟨o3, dc, hj, hA3, hd3, hq3, ?_⟩
        have hne : e.2 ≠ oid := by
          intro hc
          rw [hc, hlook] at hlook3
          have h4 : o2 = { o3 with centroid := dc.2, disappeared := 0 } := by
            cases hlook3
            rfl
          rw [h4] at hdisap
          cases hdisap
        rw [lookupObj_updObj_ne _ _ _ _ hne]
        exact hlook3
      · rcases List.mem_singleton.mp hev with rfl
        refine ⟨o2, (cls, c), hdc, hlookA, hdisap, hqual, ?_⟩
        rw [lookupObj_updObj_self, hlook]
        rfl
  | none =>
    have hnextfresh : s.nextId ∉ s.objs.map (fun p => p.1) := by
      rw [hs.keys_eq]
      intro hc
      rcases List.mem_append.mp hc with h2 | h2
      · have := hltA _ h2
        have := hs.next_eq
        omega
      · have := hnewlt _ h2
        omega
    refine ⟨?_, ?_, ?_, ?_, ?_, ?_⟩
    · simp only [List.map_append]
      rw [hs.keys_eq, List.append_assoc]
      rfl
    · simp only [List.length_append, List.length_singleton]
      rw [hs.next_eq]
      omega
    · have h1 : List.range' next0 s.newIds.length ++ [next0 + s.newIds.length] =
          List.range' next0 (s.newIds.length + 1) := by
        have h2 := List.range'_append next0 s.newIds.length 1 1
        simp only [List.range'_one, Nat.one_mul] at h2
        rw [show s.newIds.length + 1 = 1 + s.newIds.length from by omega]
        exact h2
      show s.newIds ++ [s.nextId] = List.range' next0 (s.newIds ++ [s.nextId]).length
      rw [show (s.newIds ++ [s.nextId]).length = s.newIds.length + 1 from by simp]
      rw [hs.next_eq, ← h1]
      exact congrArg (fun l => l ++ [next0 + s.newIds.length]) hs.new_eq
    · intro id hid
      rcases List.mem_append.mp hid with hid | hid
      · obtain ⟨j, dc, hj, hlook2⟩ := hs.new_objs id hid
        refine ⟨j, dc, hj, ?_⟩
        rw [lookupObj_append, hlook2]
      · rcases List.mem_singleton.mp hid with rfl
        refine ⟨i, (cls, c), hdc, ?_⟩
        rw [lookupObj_append]
        rw [(lookupObj_eq_none_iff _ _).mpr hnextfresh]
        rw [lookupObj_cons]
        simp
    · intro id hidA hev
      have hlookA : (lookupObj A id).isSome = true := (lookupObj_isSome_iff A id).mpr hidA
      cases hA : lookupObj A id with
      | none =>
        rw [hA] at hlookA
        cases hlookA
      | some o3 =>
        have h2 := hs.old_objs id hidA hev
        rw [hA] at h2
        rw [lookupObj_append, h2]
    · intro e hev
      obtain ⟨o3, dc, hj, hA3, hd3, hq3, hlook3⟩ := hs.redisc_spec e hev
      refine ⟨o3, dc, hj, hA3, hd3, hq3, ?_⟩
      rw [lookupObj_append, hlook3]

theorem processUnmatchedAux_nil (dthr : ℚ) (maxd : ℕ) (cols : List ℕ) (i0 : ℕ) (s : TailState) :
    processUnmatchedAux dthr maxd cols i0 [] s = s := rfl

theorem processUnmatchedAux_cons (dthr : ℚ) (maxd : ℕ) (cols : List ℕ) (i0 : ℕ)
    (dc : VClass × (ℤ × ℤ)) (rest : List (VClass × (ℤ × ℤ))) (s : TailState) :
    processUnmatchedAux dthr maxd cols i0 (dc :: rest) s =
      processUnmatchedAux dthr maxd cols (i0 + 1) rest
        (if cols.any (fun cj => cj == i0) then s
         else unmatchedDetStep dthr maxd i0 dc.1 dc.2 s) := rfl

theorem processUnmatchedAux_inv (dthr : ℚ) (maxd : ℕ) (cols : List ℕ)
    (dcs0 : List (VClass × (ℤ × ℤ))) (P : TailState → Prop)
    (hstep : ∀ i cls c s, dcs0.get? i = some (cls, c) → P s →
      P (unmatchedDetStep dthr maxd i cls c s)) :
    ∀ (dcs : List (VClass × (ℤ × ℤ))) (i0 : ℕ) (s : TailState),
      dcs0.drop i0 = dcs → P s →
      P (processUnmatchedAux dthr maxd cols i0 dcs s) := by
  intro dcs
  induction dcs with
  | nil =>
    intro i0 s hdrop hP
    rw [processUnmatchedAux_nil]
    exact hP
  | cons dc rest ih =>
    intro i0 s hdrop hP
    rw [processUnmatchedAux_cons]
    have hget : dcs0.get? i0 = some dc := by
      have h1 : (dcs0.drop i0).head? = dcs0.get? i0 := by
        rw [List.head?_drop, List.get?_eq_getElem?]
      rw [hdrop] at h1
      exact h1.symm
    have hdrop2 : dcs0.drop (i0 + 1) = rest := by
      have h1 : (dcs0.drop i0).tail = dcs0.drop (i0 + 1) := List.tail_drop dcs0 i0
      rw [hdrop] at h1
      exact h1.symm
    apply ih (i0 + 1) _ hdrop2
    by_cases hcol : cols.any (fun cj => cj == i0)
    · rw [if_pos hcol]
      exact hP
    · rw [if_neg hcol]
      exact hstep i0 dc.1 dc.2 s hget hP

theorem lookupObj_ageUnmatched (maxd : ℕ) (rows : List ℕ) (objs : List (ℕ × TrackedObject))
    (hnd : (objs.map (fun p => p.1)).Nodup) (j : ℕ) (p : ℕ × TrackedObject)
    (hj : objs.get? j = some p) :
    lookupObj (ageUnmatchedAux maxd rows 0 objs) p.1 =
      if rows.any (fun r => r == j) then some p.2
      else if p.2.disappeared + 1 ≤ maxd
        then some { p.2 with disappeared := p.2.disappeared + 1 }
      else none := by
  have hndA : ((ageUnmatchedAux maxd rows 0 objs).map (fun p => p.1)).Nodup :=
    (ageUnmatchedAux_keys_sublist maxd rows objs 0).nodup hnd
  by_cases h1 : rows.any (fun r => r == j)
  · rw [if_pos h1]
    apply lookupObj_of_mem_nodup _ _ _ hndA
    have := ageUnmatchedAux_mem_matched maxd rows objs 0 j p hj (by rw [Nat.zero_add]; exact h1)
    exact this
  · rw [if_neg h1]
    have h1f : rows.any (fun r => r == j) = false :=
      Bool.eq_false_iff.mpr h1
    by_cases h2 : p.2.disappeared + 1 ≤ maxd
    · rw [if_pos h2]
      apply lookupObj_of_mem_nodup _ _ _ hndA
      exact ageUnmatchedAux_mem_survivor maxd rows objs 0 j p hj
        (by rw [Nat.zero_add]; exact h1f) h2
    · rw [if_neg h2]
      rw [lookupObj_eq_none_iff]
      intro hc
      rcases List.mem_map.mp hc with ⟨q, hq, hq2⟩
      obtain ⟨j2, p2, hj2, he2, hcase⟩ := mem_ageUnmatchedAux maxd rows objs 0 q hq
      rw [Nat.zero_add] at hcase
      have hjeq : j2 = j := by
        have hlen : j2 < (objs.map (fun p => p.1)).length := by
          rw [List.length_map]
          exact (List.get?_eq_some.mp hj2).1
        apply @List.get?_inj j2 ℕ (objs.map (fun p : ℕ × TrackedObject => p.1)) j hlen hnd
        rw [List.get?_map, List.get?_map, hj2, hj]
        show some p2.1 = some p.1
        rw [← he2, hq2]
      rw [hjeq, hj] at hj2
      have hp2 : p2 = p := by
        cases hj2
        rfl
      rw [hjeq] at hcase
      rw [hp2] at hcase
      rcases hcase with ⟨hc1, hc2⟩ | ⟨hc1, hc2, hc3⟩
      · rw [hc1] at h1f
        cases h1f
      · omega

theorem registerNewObjects_counts : ∀ (t : VehicleTracker) (dcs : List (VClass × (ℤ × ℤ))),
    (registerNewObjects t dcs).1.vehicle_counts = t.vehicle_counts ∧
    (registerNewObjects t dcs).1.distance_threshold = t.distance_threshold ∧
    (registerNewObjects t dcs).1.movement_threshold = t.movement_threshold ∧
    (registerNewObjects t dcs).1.max_disappeared = t.max_disappeared ∧
    (registerNewObjects t dcs).1.parked_threshold = t.parked_threshold := by
  intro t dcs
  induction dcs generalizing t with
  | nil => exact ⟨rfl, rfl, rfl, rfl, rfl⟩
  | cons dc rest ih =>
    exact ih _

theorem registerNewObjects_cons_eq (t : VehicleTracker) (dc : VClass × (ℤ × ℤ))
    (rest : List (VClass × (ℤ × ℤ))) :
    registerNewObjects t (dc :: rest) =
      ((registerNewObjects { t with
          tracked_objects :=
            t.tracked_objects ++ [(t.next_object_id, freshObject dc.1 dc.2)],
          next_object_id := t.next_object_id + 1 } rest).1,
        t.next_object_id ::
          (registerNewObjects { t with
            tracked_objects :=
              t.tracked_objects ++ [(t.next_object_id, freshObject dc.1 dc.2)],
            next_object_id := t.next_object_id + 1 } rest).2) := rfl

theorem registerNewObjects_next : ∀ (dcs : List (VClass × (ℤ × ℤ))) (t : VehicleTracker),
    (registerNewObjects t dcs).1.next_object_id = t.next_object_id + dcs.length := by
  intro dcs
  induction dcs with
  | nil =>
    intro t
    rfl
  | cons dc rest ih =>
    intro t
    rw [registerNewObjects_cons_eq]
    simp only [List.length_cons]
    rw [ih]
    simp only []
    omega

theorem registerNewObjects_ids : ∀ (dcs : List (VClass × (ℤ × ℤ))) (t : VehicleTracker),
    (registerNewObjects t dcs).2 = List.range' t.next_object_id dcs.length := by
  intro dcs
  induction dcs with
  | nil =>
    intro t
    rfl
  | cons dc rest ih =>
    intro t
    rw [registerNewObjects_cons_eq]
    simp only [List.length_cons]
    rw [List.range'_succ, ih]

theorem registerNewObjects_keys : ∀ (dcs : List (VClass × (ℤ × ℤ))) (t : VehicleTracker),
    (registerNewObjects t dcs).1.tracked_objects.map (fun p => p.1) =
      t.tracked_objects.map (fun p => p.1) ++ (registerNewObjects t dcs).2 := by
  intro dcs
  induction dcs with
  | nil =>
    intro t
    simp [registerNewObjects]
  | cons dc rest ih =>
    intro t
    rw [registerNewObjects_cons_eq]
    simp only []
    rw [ih]
    simp

theorem registerNewObjects_lookup_old : ∀ (dcs : List (VClass × (ℤ × ℤ)))
    (t : VehicleTracker) (id : ℕ), id < t.next_object_id →
    lookupObj (registerNewObjects t dcs).1.tracked_objects id =
      lookupObj t.tracked_objects id := by
  intro dcs
  induction dcs with
  | nil =>
    intro t id hlt
    rfl
  | cons dc rest ih =>
    intro t id hlt
    rw [registerNewObjects_cons_eq]
    simp only []
    rw [ih _ id (by simp only []; omega)]
    simp only []
    rw [lookupObj_append]
    cases hl : lookupObj t.tracked_objects id with
    | some o => rfl
    | none =>
      simp only []
      rw [lookupObj_cons]
      have hne : ¬ (t.next_object_id = id) := by omega
      rw [if_neg hne]
      rfl

theorem registerNewObjects_lookup : ∀ (dcs : List (VClass × (ℤ × ℤ))) (t : VehicleTracker),
    (∀ id ∈ t.tracked_objects.map (fun p => p.1), id < t.next_object_id) →
    ∀ (i : ℕ) (dc : VClass × (ℤ × ℤ)), dcs.get? i = some dc →
    lookupObj (registerNewObjects t dcs).1.tracked_objects (t.next_object_id + i) =
      some (freshObject dc.1 dc.2) := by
  intro dcs
  induction dcs with
  | nil =>
    intro t hlt i dc hi
    cases hi
  | cons dc0 rest ih =>
    intro t hlt i dc hi
    rw [registerNewObjects_cons_eq]
    simp only []
    cases i with
    | zero =>
      have hdc : some dc0 = some dc := hi
      cases hdc
      have h1 := registerNewObjects_lookup_old rest { t with
        tracked_objects := t.tracked_objects ++ [(t.next_object_id, freshObject dc0.1 dc0.2)],
        next_object_id := t.next_object_id + 1 } t.next_object_id (by simp only []; omega)
      rw [show t.next_object_id + 0 = t.next_object_id from rfl, h1]
      simp only []
      rw [lookupObj_append]
      have hnone : lookupObj t.tracked_objects t.next_object_id = none := by
        rw [lookupObj_eq_none_iff]
        intro hc
        have := hlt _ hc
        omega
      rw [hnone]
      simp only []
      rw [lookupObj_cons]
      simp
    | succ j =>
      have hj : rest.get? j = some dc := hi
      have hlt2 : ∀ id ∈ ({ t with
          tracked_objects := t.tracked_objects ++ [(t.next_object_id, freshObject dc0.1 dc0.2)],
          next_object_id := t.next_object_id + 1 } :
            VehicleTracker).tracked_objects.map (fun p => p.1),
          id < t.next_object_id + 1 := by
        simp only [List.map_append]
        intro id hid
        rcases List.mem_append.mp hid with h2 | h2
        · have := hlt id h2
          omega
        · simp at h2
          omega
      have h2 := ih _ hlt2 j dc hj
      rw [show t.next_object_id + (j + 1) = t.next_object_id + 1 + j from by omega]
      exact h2

/-- Full characterization of one (instrumented) `update` call against the
pre-call tracker state, used to derive the specification claims. -/
structure UpdateSpec (t : VehicleTracker) (dets : List Detection) (r : UpdateResult) : Prop where
  cfg_dthr : r.tracker.distance_threshold = t.distance_threshold
  cfg_mthr : r.tracker.movement_threshold = t.movement_threshold
  cfg_maxd : r.tracker.max_disappeared = t.max_disappeared
  cfg_pthr : r.tracker.parked_threshold = t.parked_threshold
  next_eq : r.tracker.next_object_id = t.next_object_id + r.new_objects.length
  new_eq : r.new_objects = List.range' t.next_object_id r.new_objects.length
  counts_eq : ∀ c, r.tracker.vehicle_counts c =
    t.vehicle_counts c + ((r.countEvents).filter (fun e => e.2 == c)).length
  oid_nodup : (r.mrecs.map (fun m => m.oid)).Nodup
  row_nodup : (r.mrecs.map (fun m => m.row)).Nodup
  col_nodup : (r.mrecs.map (fun m => m.col)).Nodup
  mrec_spec : ∀ mr ∈ r.mrecs, ∃ o, lookupObj t.tracked_objects mr.oid = some o ∧
    mr.oldC = o.centroid ∧ mr.cls = o.cls ∧
    sqrtLtQ (distSq mr.oldC mr.newC) t.distance_threshold = true ∧
    mr.countedNow = (applyMatchObj t.movement_threshold t.parked_threshold mr.newC o).2 ∧
    lookupObj r.tracker.tracked_objects mr.oid =
      some (applyMatchObj t.movement_threshold t.parked_threshold mr.newC o).1
  unmatched_spec : ∀ id o, lookupObj t.tracked_objects id = some o →
    (∀ mr ∈ r.mrecs, mr.oid ≠ id) → (∀ e ∈ r.rEvents, e.2 ≠ id) →
    lookupObj r.tracker.tracked_objects id =
      (if o.disappeared + 1 ≤ t.max_disappeared
       then some { o with disappeared := o.disappeared + 1 } else none)
  redisc_spec : ∀ e ∈ r.rEvents, (∀ mr ∈ r.mrecs, mr.oid ≠ e.2) ∧
    ∃ o d, lookupObj t.tracked_objects e.2 = some o ∧ dets.get? e.1 = some d ∧
    lookupObj r.tracker.tracked_objects e.2 =
      some { o with centroid := calculate_centroid d.box, disappeared := 0 }
  new_spec : ∀ id ∈ r.new_objects, ∃ i d, dets.get? i = some d ∧
    lookupObj r.tracker.tracked_objects id =
      some (freshObject d.cls (calculate_centroid d.box))
  keys_sub : ∀ id ∈ r.tracker.tracked_objects.map (fun p => p.1),
    id ∈ t.tracked_objects.map (fun p => p.1) ∨ id ∈ r.new_objects
  keys_nodup : (r.tracker.tracked_objects.map (fun p => p.1)).Nodup
  mrec_oid_mem : ∀ mr ∈ r.mrecs, mr.oid ∈ t.tracked_objects.map (fun p => p.1)

theorem matchAndUpdate_spec (t : VehicleTracker) (dets : List Detection)
    (hnd : (t.tracked_objects.map (fun p => p.1)).Nodup)
    (hlt : ∀ id ∈ t.tracked_objects.map (fun p => p.1), id < t.next_object_id) :
    UpdateSpec t dets
      (matchAndUpdate t dets (dets.map (fun d => calculate_centroid d.box))) := by
  set dcents := dets.map (fun d => calculate_centroid d.box) with hdcdef
  set g0 : GreedyState :=
    { objs := t.tracked_objects, counts := t.vehicle_counts, mrecs := [] } with hg0def
  set g := greedyLoop t.distance_threshold t.movement_threshold t.parked_threshold
    (t.tracked_objects.map (fun p => p.1)) (t.tracked_objects.map (fun p => p.2.centroid))
    dcents (min (t.tracked_objects.map (fun p => p.1)).length dcents.length) g0 with hgdef
  have hG : GInv t.distance_threshold t.movement_threshold t.parked_threshold
      t.tracked_objects t.vehicle_counts dcents g := by
    rw [hgdef]
    exact greedyLoop_inv _ _ _ _ _ _ _
      (fun g2 hg2 => GInv_step _ _ _ _ _ _ hnd g2 hg2) _ _
      (GInv_initial _ _ _ _ _ _)
  set rows := g.mrecs.map (fun m => m.row) with hrowsdef
  set cols := g.mrecs.map (fun m => m.col) with hcolsdef
  set A := ageUnmatchedAux t.max_disappeared rows 0 g.objs with hAdef
  have hndg : (g.objs.map (fun p => p.1)).Nodup := by
    rw [hG.keys_eq]
    exact hnd
  have hsubA : ∀ id ∈ A.map (fun p => p.1), id ∈ t.tracked_objects.map (fun p => p.1) := by
    intro id hid
    have h1 := (ageUnmatchedAux_keys_sublist t.max_disappeared rows g.objs 0).subset hid
    rw [hG.keys_eq] at h1
    exact h1
  have hndA : (A.map (fun p => p.1)).Nodup :=
    (ageUnmatchedAux_keys_sublist t.max_disappeared rows g.objs 0).nodup hndg
  have hltA : ∀ id ∈ A.map (fun p => p.1), id < t.next_object_id :=
    fun id hid => hlt id (hsubA id hid)
  set dcs0 := (dets.map (fun d => d.cls)).zip dcents with hdcs0def
  set t0 : TailState :=
    { objs := A, nextId := t.next_object_id, newIds := [], rEvents := [] } with ht0def
  set tl := processUnmatchedAux t.distance_threshold t.max_disappeared cols 0 dcs0 t0
    with htldef
  have hT : TailInv t.distance_threshold t.max_disappeared A t.next_object_id dcs0 tl := by
    rw [htldef]
    apply processUnmatchedAux_inv t.distance_threshold t.max_disappeared cols dcs0 _
      (fun i cls c s hget hs =>
        TailInv_step t.distance_threshold t.max_disappeared A t.next_object_id dcs0
          hndA hltA i cls c s hget hs)
      dcs0 0 t0 (List.drop_zero dcs0)
    exact TailInv_initial _ _ _ _ _
  have hres : matchAndUpdate t dets dcents =
      { tracker := { t with tracked_objects := tl.objs, next_object_id := tl.nextId,
                            vehicle_counts := g.counts }
        new_objects := tl.newIds
        mrecs := g.mrecs
        rEvents := tl.rEvents } := rfl
  rw [hres]
  have hlookA_matched : ∀ mr ∈ g.mrecs, ∃ p : ℕ × TrackedObject,
      t.tracked_objects.get? mr.row = some p ∧ mr.oid = p.1 ∧
      mr.oldC = p.2.centroid ∧ mr.cls = p.2.cls ∧
      mr.newC = dcents.getD mr.col (0, 0) ∧
      mr.countedNow =
        (applyMatchObj t.movement_threshold t.parked_threshold mr.newC p.2).2 ∧
      lookupObj A mr.oid =
        some (applyMatchObj t.movement_threshold t.parked_threshold mr.newC p.2).1 := by
    intro mr hmr
    obtain ⟨p, hp1, hp2, hp3, hp4, hp5, hp6, hp7⟩ := hG.rec_spec mr hmr
    refine ⟨p, hp1, hp2, hp3, hp4, hp5, hp6, ?_⟩
    have hany : rows.any (fun r => r == mr.row) = true := by
      apply List.any_eq_true.mpr
      exact ⟨mr.row, List.mem_map_of_mem _ hmr, by simp⟩
    have h2 := lookupObj_ageUnmatched t.max_disappeared rows g.objs hndg mr.row
      (p.1, (applyMatchObj t.movement_threshold t.parked_threshold mr.newC p.2).1) hp7
    rw [if_pos hany] at h2
    rw [hp2]
    exact h2
  have hnoev_matched : ∀ mr ∈ g.mrecs, ∀ e ∈ tl.rEvents, e.2 ≠ mr.oid := by
    intro mr hmr e hev hc
    obtain ⟨o3, dc, hj, hA3, hd3, hq3, hlook3⟩ := hT.redisc_spec e hev
    obtain ⟨p, hp1, hp2, hp3, hp4, hp5, hp6, hAm⟩ := hlookA_matched mr hmr
    rw [hc, hAm] at hA3
    have h4 : o3 = (applyMatchObj t.movement_threshold t.parked_threshold mr.newC p.2).1 := by
      cases hA3
      rfl
    rw [h4, applyMatchObj_disappeared] at hd3
    cases hd3
  have hnotrow : ∀ (j : ℕ) (p : ℕ × TrackedObject), t.tracked_objects.get? j = some p →
      (∀ mr ∈ g.mrecs, mr.oid ≠ p.1) → rows.any (fun r => r == j) = false := by
    intro j p hj hno
    cases hany : rows.any (fun r => r == j) with
    | false => rfl
    | true =>
      obtain ⟨rr, hrr, hrr2⟩ := List.any_eq_true.mp hany
      obtain ⟨mr, hmr, hmreq⟩ := List.mem_map.mp hrr
      have hjr : mr.row = j := by
        have hrj : rr = j := by simpa using hrr2
        rw [hmreq]
        exact hrj
      obtain ⟨p2, hp1, hp2, hp3, hp4, hp5, hp6, hp7⟩ := hG.rec_spec mr hmr
      rw [hjr, hj] at hp1
      have : p2 = p := by
        cases hp1
        rfl
      rw [this] at hp2
      exact absurd hp2.symm (fun hcon => hno mr hmr (by rw [← hcon]))
  have hmrecrows : ∀ (j : ℕ), rows.any (fun r => r == j) = false →
      ∀ mr ∈ g.mrecs, mr.row ≠ j := by
    intro j hany mr hmr hc
    have h2 : (mr.row == j) = true := by
      rw [hc]
      simp
    have h3 : rows.any (fun r => r == j) = true :=
      List.any_eq_true.mpr ⟨mr.row, List.mem_map_of_mem _ hmr, h2⟩
    rw [hany] at h3
    cases h3
  refine ⟨rfl, rfl, rfl, rfl, ?_, ?_, ?_, ?_, ?_, ?_, ?_, ?_, ?_, ?_, ?_, ?_, ?_⟩
  · exact hT.next_eq
  · exact hT.new_eq
  · intro c
    exact hG.counts_eq c
  · have h1 : List.Pairwise (fun m1 m2 : MatchRec => m1.row ≠ m2.row) g.mrecs :=
      List.pairwise_map.mp hG.rows_nodup
    have h2 : List.Pairwise (fun m1 m2 : MatchRec => m1.oid ≠ m2.oid) g.mrecs := by
      apply List.Pairwise.imp_of_mem _ h1
      intro m1 m2 hm1 hm2 hne hc
      obtain ⟨p1, hp11, hp12, _, _, _, _, _⟩ := hG.rec_spec m1 hm1
      obtain ⟨p2, hp21, hp22, _, _, _, _, _⟩ := hG.rec_spec m2 hm2
      apply hne
      have hlen : m1.row < (t.tracked_objects.map (fun p => p.1)).length := by
        rw [List.length_map]
        exact (List.get?_eq_some.mp hp11).1
      apply @List.get?_inj m1.row ℕ (t.tracked_objects.map (fun p : ℕ × TrackedObject => p.1)) m2.row hlen hnd
      rw [List.get?_map, List.get?_map, hp11, hp21]
      show some p1.1 = some p2.1
      rw [← hp12, ← hp22, hc]
    exact List.pairwise_map.mpr h2
  · exact hG.rows_nodup
  · exact hG.cols_nodup
  · intro mr hmr
    obtain ⟨p, hp1, hp2, hp3, hp4, hp5, hp6, hAm⟩ := hlookA_matched mr hmr
    refine ⟨p.2, ?_, hp3, hp4, ?_, hp6, ?_⟩
    · rw [hp2]
      exact lookupObj_of_mem_nodup _ _ _ hnd (by
        have := List.get?_mem hp1
        simpa using this)
    · exact hG.dist_lt mr hmr
    · have hmemA : mr.oid ∈ A.map (fun p => p.1) := by
        have := (lookupObj_isSome_iff A mr.oid).mp (by rw [hAm]; rfl)
        exact this
      have h2 := hT.old_objs mr.oid hmemA (fun e he => hnoev_matched mr hmr e he)
      rw [h2]
      exact hAm
  · intro id o hlook hnomr hnoev
    have hmem := mem_of_lookupObj _ _ _ hlook
    obtain ⟨j, hj⟩ := List.mem_iff_get?.mp hmem
    have hanyf : rows.any (fun r => r == j) = false := hnotrow j (id, o) hj hnomr
    have hgj : g.objs.get? j = some (id, o) := by
      rw [hG.unmatched_spec j (hmrecrows j hanyf), hj]
    have hlookA := lookupObj_ageUnmatched t.max_disappeared rows g.objs hndg j (id, o) hgj
    rw [if_neg (by rw [hanyf]; exact fun hcon => Bool.false_ne_true hcon)] at hlookA
    by_cases hsurv : o.disappeared + 1 ≤ t.max_disappeared
    · rw [if_pos hsurv] at hlookA
      rw [if_pos hsurv]
      have hmemA : id ∈ A.map (fun p => p.1) := by
        have := (lookupObj_isSome_iff A id).mp (by rw [hlookA]; rfl)
        exact this
      have h2 := hT.old_objs id hmemA hnoev
      rw [h2]
      exact hlookA
    · rw [if_neg hsurv] at hlookA
      rw [if_neg hsurv]
      rw [lookupObj_eq_none_iff]
      intro hc
      rw [hT.keys_eq] at hc
      rcases List.mem_append.mp hc with h2 | h2
      · rw [lookupObj_eq_none_iff] at hlookA
        exact hlookA h2
      · rw [hT.new_eq] at h2
        have h3 := (List.mem_range'_1.mp h2).1
        have h4 := hlt id (List.mem_map_of_mem _ hmem)
        omega
  · intro e hev
    obtain ⟨o3, dc, hj, hA3, hd3, hq3, hlook3⟩ := hT.redisc_spec e hev
    have hdisj : ∀ mr ∈ g.mrecs, mr.oid ≠ e.2 :=
      fun mr hmr hc => hnoev_matched mr hmr e hev hc.symm
    refine ⟨hdisj, ?_⟩
    have hmemA := mem_of_lookupObj _ _ _ hA3
    obtain ⟨j2, p2, hj2, he2, hcase⟩ :=
      mem_ageUnmatchedAux t.max_disappeared rows g.objs 0 (e.2, o3) hmemA
    rw [Nat.zero_add] at hcase
    rcases hcase with ⟨hc1, hc2⟩ | ⟨hc1, hc2, hc3⟩
    · exfalso
      obtain ⟨rr, hrr, hrr2⟩ := List.any_eq_true.mp hc1
      obtain ⟨mr, hmr, hmreq⟩ := List.mem_map.mp hrr
      have hjr : mr.row = j2 := by
        have hrj : rr = j2 := by simpa using hrr2
        rw [hmreq]
        exact hrj
      obtain ⟨pp, hp1, hp2, hp3, hp4, hp5, hp6, hp7⟩ := hG.rec_spec mr hmr
      rw [hjr, hj2] at hp7
      have hpp : p2 = (pp.1, (applyMatchObj t.movement_threshold t.parked_threshold
          mr.newC pp.2).1) := by
        cases hp7
        rfl
      have ho3 : o3 = p2.2 := by
        have h5 : (e.2, o3).2 = p2.2 := by rw [hc2]
        exact h5
      rw [ho3, hpp] at hd3
      simp only [applyMatchObj_disappeared] at hd3
      cases hd3
    · have hnorow2 : ∀ mr ∈ g.mrecs, mr.row ≠ j2 := by
        intro mr hmr hc
        have h2 : (mr.row == j2) = true := by
          rw [hc]
          simp
        have h3 : rows.any (fun r => r == j2) = true :=
          List.any_eq_true.mpr ⟨mr.row, List.mem_map_of_mem _ hmr, h2⟩
        rw [hc1] at h3
        cases h3
      have hobjs0 : t.tracked_objects.get? j2 = some p2 := by
        rw [← hG.unmatched_spec j2 hnorow2]
        exact hj2
      have hlookpre : lookupObj t.tracked_objects e.2 = some p2.2 := by
        have hm2 := List.get?_mem hobjs0
        have hm3 : (e.2, p2.2) ∈ t.tracked_objects := by
          have hfst : p2.1 = e.2 := by
            have h5 : (e.2, o3).1 = p2.1 := by rw [he2]
            exact h5.symm
          rw [← hfst]
          simpa using hm2
        exact lookupObj_of_mem_nodup _ _ _ hnd hm3
      obtain ⟨hcls, hcent⟩ := zip_get? _ _ e.1 dc.1 dc.2 (by rw [hj])
      rw [hdcdef] at hcent
      rw [List.get?_map] at hcent
      cases hd : dets.get? e.1 with
      | none =>
        rw [hd] at hcent
        cases hcent
      | some d =>
        rw [hd] at hcent
        have hcent2 : calculate_centroid d.box = dc.2 := by simpa using hcent
        refine ⟨p2.2, d, hlookpre, rfl, ?_⟩
        rw [hlook3]
        have ho3 : o3 = { p2.2 with disappeared := p2.2.disappeared + 1 } := by
          have h5 : (e.2, o3).2 = { p2.2 with disappeared := p2.2.disappeared + 1 } := by
            rw [hc3]
          exact h5
        rw [ho3, ← hcent2]
  · intro id hid
    obtain ⟨i, dc, hget, hlook⟩ := hT.new_objs id hid
    obtain ⟨hcls, hcent⟩ := zip_get? _ _ i dc.1 dc.2 (by rw [hget])
    rw [hdcdef, List.get?_map] at hcent
    rw [List.get?_map] at hcls
    cases hd : dets.get? i with
    | none =>
      rw [hd] at hcent
      cases hcent
    | some d =>
      rw [hd] at hcent hcls
      have hcent2 : calculate_centroid d.box = dc.2 := by simpa using hcent
      have hcls2 : d.cls = dc.1 := by simpa using hcls
      refine ⟨i, d, hd, ?_⟩
      rw [hlook, hcent2, hcls2]
  · intro id hid
    rw [hT.keys_eq] at hid
    rcases List.mem_append.mp hid with h2 | h2
    · exact Or.inl (hsubA id h2)
    · exact Or.inr h2
  · exact TailInv_keys_nodup _ _ _ _ _ _ hndA hltA hT
  · intro mr hmr
    obtain ⟨p, hp1, hp2, _, _, _, _, _⟩ := hG.rec_spec mr hmr
    rw [hp2]
    have := List.get?_mem hp1
    exact List.mem_map_of_mem _ this

theorem updateFull_spec (t : VehicleTracker) (dets : List Detection)
    (hnd : (t.tracked_objects.map (fun p => p.1)).Nodup)
    (hlt : ∀ id ∈ t.tracked_objects.map (fun p => p.1), id < t.next_object_id) :
    UpdateSpec t dets (t.updateFull dets) := by
  cases dets with
  | nil =>
    have hres : VehicleTracker.updateFull t [] =
        { tracker := { t with
            tracked_objects := ageUnmatchedAux t.max_disappeared [] 0 t.tracked_objects }
          new_objects := []
          mrecs := []
          rEvents := [] } := rfl
    rw [hres]
    refine ⟨rfl, rfl, rfl, rfl, by simp, by simp, ?_, by simp, by simp, by simp, by simp,
      ?_, by simp, by simp, ?_, ?_, by simp⟩
    · intro c
      simp [UpdateResult.countEvents, matchCountEvents]
    · intro id o hlook hmr hev
      have hmem := mem_of_lookupObj _ _ _ hlook
      obtain ⟨j, hj⟩ := List.mem_iff_get?.mp hmem
      have h2 := lookupObj_ageUnmatched t.max_disappeared [] t.tracked_objects hnd j (id, o) hj
      rw [if_neg (by simp)] at h2
      by_cases hsurv : o.disappeared + 1 ≤ t.max_disappeared
      · rw [if_pos hsurv] at h2
        rw [if_pos hsurv]
        exact h2
      · rw [if_neg hsurv] at h2
        rw [if_neg hsurv]
        exact h2
    · intro id hid
      left
      exact (ageUnmatchedAux_keys_sublist _ _ _ _).subset hid
    · exact (ageUnmatchedAux_keys_sublist _ _ _ _).nodup hnd
  | cons d0 rest =>
    show UpdateSpec t (d0 :: rest) (VehicleTracker.updateFull t (d0 :: rest))
    by_cases hemp : t.tracked_objects.isEmpty
    · have hempty : t.tracked_objects = [] := List.isEmpty_iff.mp hemp
      have hres : VehicleTracker.updateFull t (d0 :: rest) =
          { tracker := (registerNewObjects t (((d0 :: rest).map (fun d => d.cls)).zip
              ((d0 :: rest).map (fun d => calculate_centroid d.box)))).1
            new_objects := (registerNewObjects t (((d0 :: rest).map (fun d => d.cls)).zip
              ((d0 :: rest).map (fun d => calculate_centroid d.box)))).2
            mrecs := []
            rEvents := [] } := by
        unfold VehicleTracker.updateFull
        rw [if_pos hemp]
      rw [hres]
      set dcs := (((d0 :: rest).map (fun d => d.cls)).zip
        ((d0 :: rest).map (fun d => calculate_centroid d.box))) with hdcs
      have hlen : dcs.length = (d0 :: rest).length := by
        rw [hdcs, List.length_zip, List.length_map, List.length_map]
        omega
      obtain ⟨hc1, hc2, hc3, hc4, hc5⟩ := registerNewObjects_counts t dcs
      have hnext := registerNewObjects_next dcs t
      have hids := registerNewObjects_ids dcs t
      have hkeys := registerNewObjects_keys dcs t
      refine ⟨hc2, hc3, hc4, hc5, ?_, ?_, ?_, by simp, by simp, by simp, by simp, ?_, by simp,
        ?_, ?_, ?_, by simp⟩
      · simp only []
        rw [hnext, hids, List.length_range']
      · simp only []
        rw [hids, List.length_range']
      · intro c
        simp only [UpdateResult.countEvents, matchCountEvents]
        rw [hc1]
        simp
      · intro id o hlook hmr hev
        rw [hempty] at hlook
        cases hlook
      · intro id hid
        simp only [] at hid
        rw [hids] at hid
        have hrange := List.mem_range'_1.mp hid
        have hget : ∃ dc, dcs.get? (id - t.next_object_id) = some dc := by
          cases hq : dcs.get? (id - t.next_object_id) with
          | none =>
            have := List.get?_eq_none.mp hq
            omega
          | some q => exact ⟨q, rfl⟩
        obtain ⟨dc, hdc⟩ := hget
        have hlook := registerNewObjects_lookup dcs t
          (by rw [hempty]; intro id hid; cases hid) (id - t.next_object_id) dc hdc
        rw [show t.next_object_id + (id - t.next_object_id) = id from by omega] at hlook
        obtain ⟨hcls, hcent⟩ := zip_get? _ _ (id - t.next_object_id) dc.1 dc.2 (by rw [hdc])
        rw [List.get?_map] at hcent
        rw [List.get?_map] at hcls
        cases hd : (d0 :: rest).get? (id - t.next_object_id) with
        | none =>
          rw [hd] at hcent
          cases hcent
        | some d =>
          rw [hd] at hcent hcls
          have hcent2 : calculate_centroid d.box = dc.2 := by simpa using hcent
          have hcls2 : d.cls = dc.1 := by simpa using hcls
          refine ⟨id - t.next_object_id, d, hd, ?_⟩
          rw [hlook, hcent2, hcls2]
      · intro id hid
        simp only [] at hid
        rw [hkeys, hempty] at hid
        simp only [List.map_nil, List.nil_append] at hid
        exact Or.inr hid
      · simp only []
        rw [hkeys, hempty]
        simp only [List.map_nil, List.nil_append]
        rw [hids]
        exact List.nodup_range' _ _
    · have hres : VehicleTracker.updateFull t (d0 :: rest) =
          matchAndUpdate t (d0 :: rest) ((d0 :: rest).map (fun d => calculate_centroid d.box)) := by
        unfold VehicleTracker.updateFull
        rw [if_neg hemp]
      rw [hres]
      exact matchAndUpdate_spec t (d0 :: rest) hnd hlt

theorem histFor_append (id : ℕ) (a b : List (ℕ × VClass)) :
    histFor id (a ++ b) = histFor id a + histFor id b := by
  unfold histFor
  rw [List.filter_append, List.length_append]

theorem histFor_zero_of (id : ℕ) (evs : List (ℕ × VClass)) (h : ∀ e ∈ evs, e.1 ≠ id) :
    histFor id evs = 0 := by
  unfold histFor
  rw [List.length_eq_zero]
  rw [List.filter_eq_nil]
  intro e he
  simpa using h e he

theorem mem_matchCountEvents (ms : List MatchRec) (e : ℕ × VClass)
    (h : e ∈ matchCountEvents ms) :
    ∃ mr ∈ ms, mr.countedNow = true ∧ mr.oid = e.1 ∧ mr.cls = e.2 := by
  unfold matchCountEvents at h
  rcases List.mem_map.mp h with ⟨mr, hmr, hme⟩
  rcases List.mem_filter.mp hmr with ⟨hm1, hm2⟩
  exact ⟨mr, hm1, hm2, by rw [← hme], by rw [← hme]⟩

theorem matchCountEvents_cons (mr : MatchRec) (rest : List MatchRec) :
    matchCountEvents (mr :: rest) =
      (if mr.countedNow then [(mr.oid, mr.cls)] else []) ++ matchCountEvents rest := by
  have h := matchCountEvents_append [mr] rest
  rw [matchCountEvents_singleton] at h
  exact h

theorem histFor_matchCountEvents_of (ms : List MatchRec)
    (hnd : (ms.map (fun m => m.oid)).Nodup) (mr : MatchRec) (hmr : mr ∈ ms)
    (hcn : mr.countedNow = true) : histFor mr.oid (matchCountEvents ms) = 1 := by
  induction ms with
  | nil => cases hmr
  | cons m0 rest ih =>
    rw [matchCountEvents_cons, histFor_append]
    rw [List.map_cons, List.nodup_cons] at hnd
    rcases List.mem_cons.mp hmr with hc | hc
    · rw [hc] at hcn
      rw [hc]
      rw [if_pos hcn]
      have h0 : histFor m0.oid (matchCountEvents rest) = 0 := by
        apply histFor_zero_of
        intro e he
        obtain ⟨mr2, hmr2, _, hoid, _⟩ := mem_matchCountEvents rest e he
        intro hcon
        apply hnd.1
        rw [show m0.oid = mr2.oid from (hoid.trans hcon).symm]
        exact List.mem_map_of_mem _ hmr2
      rw [h0]
      unfold histFor
      simp
    · have hne : m0.oid ≠ mr.oid := by
        intro hcon
        apply hnd.1
        rw [hcon]
        exact List.mem_map_of_mem _ hc
      have h1 : histFor mr.oid (if m0.countedNow then [(m0.oid, m0.cls)] else []) = 0 := by
        by_cases hb : m0.countedNow
        · rw [if_pos hb]
          apply histFor_zero_of
          intro e he
          rcases List.mem_singleton.mp he with rfl
          exact hne
        · rw [if_neg hb]
          rfl
      rw [h1, ih hnd.2 hc]
  
theorem histFor_matchCountEvents_zero (ms : List MatchRec) (id : ℕ)
    (h : ∀ mr ∈ ms, mr.oid ≠ id) : histFor id (matchCountEvents ms) = 0 := by
  apply histFor_zero_of
  intro e he
  obtain ⟨mr2, hmr2, _, hoid, _⟩ := mem_matchCountEvents ms e he
  rw [← hoid]
  exact h mr2 hmr2

theorem UpdateSpec_classify (t : VehicleTracker) (dets : List Detection) (r : UpdateResult)
    (sp : UpdateSpec t dets r) (p : ℕ × TrackedObject)
    (hp : p ∈ r.tracker.tracked_objects) :
    (p.1 ∈ r.new_objects ∧
      ∃ d i, dets.get? i = some d ∧ p.2 = freshObject d.cls (calculate_centroid d.box)) ∨
    (∃ o mr, mr ∈ r.mrecs ∧ mr.oid = p.1 ∧ lookupObj t.tracked_objects p.1 = some o ∧
      p.2 = (applyMatchObj t.movement_threshold t.parked_threshold mr.newC o).1 ∧
      mr.countedNow = (applyMatchObj t.movement_threshold t.parked_threshold mr.newC o).2) ∨
    (∃ o e, e ∈ r.rEvents ∧ e.2 = p.1 ∧ lookupObj t.tracked_objects p.1 = some o ∧
      (∀ mr ∈ r.mrecs, mr.oid ≠ p.1) ∧
      ∃ d, dets.get? e.1 = some d ∧
        p.2 = { o with centroid := calculate_centroid d.box, disappeared := 0 }) ∨
    (∃ o, lookupObj t.tracked_objects p.1 = some o ∧ (∀ mr ∈ r.mrecs, mr.oid ≠ p.1) ∧
      (∀ e ∈ r.rEvents, e.2 ≠ p.1) ∧
      p.2 = { o with disappeared := o.disappeared + 1 } ∧
      o.disappeared + 1 ≤ t.max_disappeared) := by
  have hplook : lookupObj r.tracker.tracked_objects p.1 = some p.2 :=
    lookupObj_of_mem_nodup _ _ _ sp.keys_nodup hp
  by_cases hnew : p.1 ∈ r.new_objects
  · left
    obtain ⟨i, d, hd, hlook⟩ := sp.new_spec p.1 hnew
    rw [hplook] at hlook
    exact ⟨hnew, d, i, hd, Option.some.inj hlook⟩
  · have hold : p.1 ∈ t.tracked_objects.map (fun q => q.1) := by
      rcases sp.keys_sub p.1 (List.mem_map_of_mem _ hp) with h2 | h2
      · exact h2
      · exact absurd h2 hnew
    have hlookpre : ∃ o, lookupObj t.tracked_objects p.1 = some o := by
      cases hq : lookupObj t.tracked_objects p.1 with
      | none =>
        rw [lookupObj_eq_none_iff] at hq
        exact absurd hold hq
      | some o => exact ⟨o, rfl⟩
    obtain ⟨o, ho⟩ := hlookpre
    by_cases hmr : ∃ mr ∈ r.mrecs, mr.oid = p.1
    · right; left
      obtain ⟨mr, hmr1, hmr2⟩ := hmr
      obtain ⟨o2, ho2, _, _, _, hcn, hlook⟩ := sp.mrec_spec mr hmr1
      rw [hmr2] at ho2 hlook
      rw [ho] at ho2
      have hoo : o2 = o := by
        cases ho2
        rfl
      rw [hoo] at hcn hlook
      rw [hplook] at hlook
      exact ⟨o, mr, hmr1, hmr2, ho, Option.some.inj hlook, hcn⟩
    · have hnomr : ∀ mr ∈ r.mrecs, mr.oid ≠ p.1 :=
        fun mr hm hc => hmr ⟨mr, hm, hc⟩
      by_cases hev : ∃ e ∈ r.rEvents, e.2 = p.1
      · right; right; left
        obtain ⟨e, hev1, hev2⟩ := hev
        obtain ⟨hdisj, o2, d, ho2, hd, hlook⟩ := sp.redisc_spec e hev1
        rw [hev2] at ho2 hlook
        rw [ho] at ho2
        have hoo : o2 = o := by
          cases ho2
          rfl
        rw [hoo] at hlook
        rw [hplook] at hlook
        exact ⟨o, e, hev1, hev2, ho, hnomr, d, hd, Option.some.inj hlook⟩
      · right; right; right
        have hnoev : ∀ e ∈ r.rEvents, e.2 ≠ p.1 :=
          fun e he hc => hev ⟨e, he, hc⟩
        have hlook := sp.unmatched_spec p.1 o ho hnomr hnoev
        rw [hplook] at hlook
        by_cases hsurv : o.disappeared + 1 ≤ t.max_disappeared
        · rw [if_pos hsurv] at hlook
          exact ⟨o, ho, hnomr, hnoev, Option.some.inj hlook, hsurv⟩
        · rw [if_neg hsurv] at hlook
          cases hlook

theorem histFor_matchCountEvents_notCounted (ms : List MatchRec) (id : ℕ)
    (h : ∀ mr ∈ ms, mr.oid = id → mr.countedNow = false) :
    histFor id (matchCountEvents ms) = 0 := by
  apply histFor_zero_of
  intro e he
  obtain ⟨mr2, hmr2, hcn, hoid, _⟩ := mem_matchCountEvents ms e he
  intro hcon
  have h2 := h mr2 hmr2 (hoid.trans hcon)
  rw [h2] at hcn
  cases hcn

theorem nodup_oid_unique (ms : List MatchRec)
    (hnd : (ms.map (fun m => m.oid)).Nodup) :
    ∀ m1 ∈ ms, ∀ m2 ∈ ms, m1.oid = m2.oid → m1 = m2 := by
  induction ms with
  | nil =>
    intro m1 h1
    cases h1
  | cons m0 rest ih =>
    rw [List.map_cons, List.nodup_cons] at hnd
    intro m1 h1 m2 h2 he
    rcases List.mem_cons.mp h1 with hc1 | hc1 <;> rcases List.mem_cons.mp h2 with hc2 | hc2
    · rw [hc1, hc2]
    · exfalso
      apply hnd.1
      rw [← hc1, he]
      exact List.mem_map_of_mem _ hc2
    · exfalso
      apply hnd.1
      rw [← hc2, ← he]
      exact List.mem_map_of_mem _ hc1
    · exact ih hnd.2 m1 hc1 m2 hc2 he

theorem histFor_mrec (ms : List MatchRec) (hnd : (ms.map (fun m => m.oid)).Nodup)
    (mr : MatchRec) (hmr : mr ∈ ms) :
    histFor mr.oid (matchCountEvents ms) = (if mr.countedNow then 1 else 0) := by
  by_cases hcn : mr.countedNow
  · rw [if_pos hcn]
    exact histFor_matchCountEvents_of ms hnd mr hmr hcn
  · rw [if_neg hcn]
    apply histFor_matchCountEvents_notCounted
    intro mr2 hmr2 hoid2
    have h2 : mr2 = mr := nodup_oid_unique ms hnd mr2 hmr2 mr hmr hoid2
    rw [h2]
    exact Bool.eq_false_iff.mpr hcn

/-- Master invariant tying a reachable tracker state to the complete history
of count-increment events since the fresh start. -/
structure TInv (s : VehicleTracker) (evs : List (ℕ × VClass)) : Prop where
  keys_nodup : (s.tracked_objects.map (fun p => p.1)).Nodup
  keys_lt : ∀ id ∈ s.tracked_objects.map (fun p => p.1), id < s.next_object_id
  evs_lt : ∀ e ∈ evs, e.1 < s.next_object_id
  counted_iff : ∀ p ∈ s.tracked_objects, histFor p.1 evs = (if p.2.counted then 1 else 0)
  gone_le : ∀ id, id ∉ s.tracked_objects.map (fun p => p.1) → histFor id evs ≤ 1
  counts_eq : ∀ c, s.vehicle_counts c = (evs.filter (fun e => e.2 == c)).length
  disap_le : ∀ p ∈ s.tracked_objects, p.2.disappeared ≤ s.max_disappeared
  parked_inv : ∀ p ∈ s.tracked_objects, p.2.is_parked = true →
    s.parked_threshold < p.2.stationary_frames

theorem TInv_init (dthr mthr : ℚ) (maxd pthr : ℕ) :
    TInv (VehicleTracker.init dthr mthr maxd pthr) [] := by
  refine ⟨?_, ?_, ?_, ?_, ?_, ?_, ?_, ?_⟩ <;> simp [VehicleTracker.init, histFor]

theorem TInv_reset (t : VehicleTracker) : TInv t.reset [] := by
  refine ⟨?_, ?_, ?_, ?_, ?_, ?_, ?_, ?_⟩ <;> simp [VehicleTracker.reset, histFor]

theorem TInv_step (s : VehicleTracker) (ds : List Detection) (evs : List (ℕ × VClass))
    (hi : TInv s evs) :
    TInv (s.updateFull ds).tracker (evs ++ (s.updateFull ds).countEvents) := by
  have sp := updateFull_spec s ds hi.keys_nodup hi.keys_lt
  set r := s.updateFull ds with hrdef
  have hcE : r.countEvents = matchCountEvents r.mrecs := rfl
  have hevlt_new : ∀ e ∈ r.countEvents, e.1 < s.next_object_id := by
    intro e he
    rw [hcE] at he
    obtain ⟨mr, hmr, _, hoid, _⟩ := mem_matchCountEvents r.mrecs e he
    rw [← hoid]
    exact hi.keys_lt _ (sp.mrec_oid_mem mr hmr)
  have hnolen : r.new_objects.length = (List.range' s.next_object_id r.new_objects.length).length := by
    rw [List.length_range']
  refine ⟨sp.keys_nodup, ?_, ?_, ?_, ?_, ?_, ?_, ?_⟩
  · intro id hid
    rcases sp.keys_sub id hid with h2 | h2
    · have h3 := hi.keys_lt id h2
      rw [sp.next_eq]
      omega
    · rw [sp.new_eq] at h2
      have h3 := (List.mem_range'_1.mp h2).2
      rw [sp.next_eq]
      omega
  · intro e he
    rcases List.mem_append.mp he with h2 | h2
    · have h3 := hi.evs_lt e h2
      rw [sp.next_eq]
      omega
    · have h3 := hevlt_new e h2
      rw [sp.next_eq]
      omega
  · intro p hp
    rw [histFor_append]
    rcases UpdateSpec_classify s ds r sp p hp with
      ⟨hnew, d, i, hd, hfresh⟩ | ⟨o, mr, hmr, hoid, ho, hobj, hcn⟩ |
      ⟨o, e, hev, hev2, ho, hnomr, d, hd, hobj⟩ | ⟨o, ho, hnomr, hnoev, hobj, hsurv⟩
    · have hcnt : p.2.counted = false := by
        rw [hfresh]
        rfl
      rw [hcnt]
      simp only [Bool.false_eq_true, if_false]
      have hge : s.next_object_id ≤ p.1 := by
        rw [sp.new_eq] at hnew
        exact (List.mem_range'_1.mp hnew).1
      have h1 : histFor p.1 evs = 0 := by
        apply histFor_zero_of
        intro e he2
        have h3 := hi.evs_lt e he2
        omega
      have h2 : histFor p.1 r.countEvents = 0 := by
        apply histFor_zero_of
        intro e he2
        have h3 := hevlt_new e he2
        omega
      omega
    · have hpre : (p.1, o) ∈ s.tracked_objects := mem_of_lookupObj _ _ _ ho
      have hhist := hi.counted_iff (p.1, o) hpre
      have hcnt : p.2.counted = (o.counted || mr.countedNow) := by
        rw [hobj, applyMatchObj_counted, ← hcn]
      have hmrh : histFor p.1 r.countEvents = (if mr.countedNow then 1 else 0) := by
        rw [hcE, ← hoid]
        exact histFor_mrec r.mrecs sp.oid_nodup mr hmr
      have hhist2 : histFor p.1 evs = if o.counted = true then 1 else 0 := hhist
      by_cases hoc : o.counted = true
      · have hcnf : mr.countedNow = false := by
          rw [hcn, applyMatchObj_snd]
          simp [hoc]
        have e1 : histFor p.1 evs = 1 := by
          rw [hhist2, if_pos hoc]
        have e2 : histFor p.1 r.countEvents = 0 := by
          rw [hmrh, hcnf]
          simp
        have e3 : p.2.counted = true := by
          rw [hcnt, hoc]
          simp
        rw [e1, e2, e3]
        simp
      · have hocf : o.counted = false := Bool.eq_false_iff.mpr hoc
        have e1 : histFor p.1 evs = 0 := by
          rw [hhist2, hocf]
          simp
        have e3 : p.2.counted = mr.countedNow := by
          rw [hcnt, hocf]
          simp
        rw [e1, e3, hmrh]
        simp
    · have hpre : (p.1, o) ∈ s.tracked_objects := mem_of_lookupObj _ _ _ ho
      have hhist : histFor p.1 evs = if o.counted = true then 1 else 0 :=
        hi.counted_iff (p.1, o) hpre
      have hcnt : p.2.counted = o.counted := by
        rw [hobj]
      have h2 : histFor p.1 r.countEvents = 0 := by
        rw [hcE]
        exact histFor_matchCountEvents_zero r.mrecs p.1 hnomr
      rw [h2, hcnt, hhist]
      simp
    · have hpre : (p.1, o) ∈ s.tracked_objects := mem_of_lookupObj _ _ _ ho
      have hhist : histFor p.1 evs = if o.counted = true then 1 else 0 :=
        hi.counted_iff (p.1, o) hpre
      have hcnt : p.2.counted = o.counted := by
        rw [hobj]
      have h2 : histFor p.1 r.countEvents = 0 := by
        rw [hcE]
        exact histFor_matchCountEvents_zero r.mrecs p.1 hnomr
      rw [h2, hcnt, hhist]
      simp
  · intro id hid
    rw [histFor_append]
    by_cases hpre : id ∈ s.tracked_objects.map (fun p => p.1)
    · obtain ⟨q, hq, hq2⟩ := List.mem_map.mp hpre
      have hlook : lookupObj s.tracked_objects id = some q.2 := by
        rw [← hq2]
        exact lookupObj_of_mem_nodup _ _ _ hi.keys_nodup hq
      have hhist := hi.counted_iff (id, q.2) (mem_of_lookupObj _ _ _ hlook)
      have h1 : histFor id evs ≤ 1 := by
        rw [hhist]
        by_cases hb : q.2.counted <;> simp [hb]
      have h2 : histFor id r.countEvents = 0 := by
        rw [hcE]
        apply histFor_matchCountEvents_zero
        intro mr hmr hc
        obtain ⟨o2, _, _, _, _, _, hlook2⟩ := sp.mrec_spec mr hmr
        apply hid
        rw [← hc]
        apply (lookupObj_isSome_iff _ _).mp
        rw [hlook2]
        rfl
      omega
    · have h1 := hi.gone_le id hpre
      have h2 : histFor id r.countEvents = 0 := by
        apply histFor_zero_of
        intro e he
        intro hc
        apply hpre
        rw [hcE] at he
        obtain ⟨mr, hmr, _, hoid, _⟩ := mem_matchCountEvents r.mrecs e he
        rw [← hc, ← hoid]
        exact sp.mrec_oid_mem mr hmr
      omega
  · intro c
    rw [sp.counts_eq c, hi.counts_eq c, List.filter_append, List.length_append]
  · intro p hp
    rw [sp.cfg_maxd]
    rcases UpdateSpec_classify s ds r sp p hp with
      ⟨hnew, d, i, hd, hfresh⟩ | ⟨o, mr, hmr, hoid, ho, hobj, hcn⟩ |
      ⟨o, e, hev, hev2, ho, hnomr, d, hd, hobj⟩ | ⟨o, ho, hnomr, hnoev, hobj, hsurv⟩
    · rw [hfresh]
      exact Nat.zero_le _
    · rw [hobj, applyMatchObj_disappeared]
      exact Nat.zero_le _
    · rw [hobj]
      exact Nat.zero_le _
    · rw [hobj]
      exact hsurv
  · intro p hp hparked
    rw [sp.cfg_pthr]
    rcases UpdateSpec_classify s ds r sp p hp with
      ⟨hnew, d, i, hd, hfresh⟩ | ⟨o, mr, hmr, hoid, ho, hobj, hcn⟩ |
      ⟨o, e, hev, hev2, ho, hnomr, d, hd, hobj⟩ | ⟨o, ho, hnomr, hnoev, hobj, hsurv⟩
    · rw [hfresh] at hparked
      cases hparked
    · rw [hobj] at hparked ⊢
      exact applyMatchObj_parked_inv s.movement_threshold s.parked_threshold mr.newC o
        (hi.parked_inv (p.1, o) (mem_of_lookupObj _ _ _ ho)) hparked
    · rw [hobj] at hparked ⊢
      exact hi.parked_inv (p.1, o) (mem_of_lookupObj _ _ _ ho) hparked
    · rw [hobj] at hparked ⊢
      exact hi.parked_inv (p.1, o) (mem_of_lookupObj _ _ _ ho) hparked

theorem runTrace_nil (t : VehicleTracker) : runTrace t [] = (t, []) := rfl

theorem runTrace_cons (t : VehicleTracker) (ds : List Detection) (rest : List (List Detection)) :
    runTrace t (ds :: rest) =
      ((runTrace (t.updateFull ds).tracker rest).1,
        (t.updateFull ds) :: (runTrace (t.updateFull ds).tracker rest).2) := rfl

theorem traceCountEvents_nil : traceCountEvents [] = [] := rfl

theorem traceCountEvents_cons (r : UpdateResult) (rs : List UpdateResult) :
    traceCountEvents (r :: rs) = r.countEvents ++ traceCountEvents rs := by
  unfold traceCountEvents
  rw [List.map_cons, List.flatten_cons]

theorem TInv_runTrace : ∀ (dss : List (List Detection)) (s : VehicleTracker)
    (evs : List (ℕ × VClass)), TInv s evs →
    TInv (runTrace s dss).1 (evs ++ traceCountEvents (runTrace s dss).2) := by
  intro dss
  induction dss with
  | nil =>
    intro s evs h
    rw [runTrace_nil]
    simpa [traceCountEvents_nil] using h
  | cons ds rest ih =>
    intro s evs h
    rw [runTrace_cons]
    have h2 := TInv_step s ds evs h
    have h3 := ih (s.updateFull ds).tracker (evs ++ (s.updateFull ds).countEvents) h2
    simp only [traceCountEvents_cons]
    rw [← List.append_assoc]
    exact h3

theorem TrackerReachable_TInv (s : VehicleTracker) (h : TrackerReachable s) :
    ∃ evs, TInv s evs := by
  induction h with
  | init dthr mthr maxd pthr => exact ⟨[], TInv_init dthr mthr maxd pthr⟩
  | reset t ht ih => exact ⟨[], TInv_reset t⟩
  | step t ds ht ih =>
    obtain ⟨evs, hi⟩ := ih
    exact ⟨evs ++ (t.updateFull ds).countEvents, TInv_step t ds evs hi⟩

theorem updateFull_config (t : VehicleTracker) (ds : List Detection) :
    (t.updateFull ds).tracker.distance_threshold = t.distance_threshold ∧
    (t.updateFull ds).tracker.movement_threshold = t.movement_threshold ∧
    (t.updateFull ds).tracker.max_disappeared = t.max_disappeared ∧
    (t.updateFull ds).tracker.parked_threshold = t.parked_threshold := by
  cases ds with
  | nil => exact ⟨rfl, rfl, rfl, rfl⟩
  | cons d rest =>
    by_cases hemp : t.tracked_objects.isEmpty
    · have hres : VehicleTracker.updateFull t (d :: rest) =
          { tracker := (registerNewObjects t (((d :: rest).map (fun d2 => d2.cls)).zip
              ((d :: rest).map (fun d2 => calculate_centroid d2.box)))).1
            new_objects := (registerNewObjects t (((d :: rest).map (fun d2 => d2.cls)).zip
              ((d :: rest).map (fun d2 => calculate_centroid d2.box)))).2
            mrecs := []
            rEvents := [] } := by
        unfold VehicleTracker.updateFull
        rw [if_pos hemp]
      rw [hres]
      obtain ⟨h1, h2, h3, h4, h5⟩ := registerNewObjects_counts t _
      exact ⟨h2, h3, h4, h5⟩
    · have hres : VehicleTracker.updateFull t (d :: rest) =
          matchAndUpdate t (d :: rest) ((d :: rest).map (fun d2 => calculate_centroid d2.box)) := by
        unfold VehicleTracker.updateFull
        rw [if_neg hemp]
      rw [hres]
      exact ⟨rfl, rfl, rfl, rfl⟩

theorem runTrace_config : ∀ (dss : List (List Detection)) (t : VehicleTracker),
    (runTrace t dss).1.distance_threshold = t.distance_threshold ∧
    (runTrace t dss).1.movement_threshold = t.movement_threshold ∧
    (runTrace t dss).1.max_disappeared = t.max_disappeared ∧
    (runTrace t dss).1.parked_threshold = t.parked_threshold := by
  intro dss
  induction dss with
  | nil =>
    intro t
    exact ⟨rfl, rfl, rfl, rfl⟩
  | cons ds rest ih =>
    intro t
    rw [runTrace_cons]
    obtain ⟨h1, h2, h3, h4⟩ := ih (t.updateFull ds).tracker
    obtain ⟨g1, g2, g3, g4⟩ := updateFull_config t ds
    exact ⟨by rw [h1, g1], by rw [h2, g2], by rw [h3, g3], by rw [h4, g4]⟩

theorem runTrace_ids : ∀ (dss : List (List Detection)) (s : VehicleTracker)
    (evs : List (ℕ × VClass)), TInv s evs →
    ∃ k, ((runTrace s dss).2.map (fun r => r.new_objects)).flatten =
        List.range' s.next_object_id k ∧
      (runTrace s dss).1.next_object_id = s.next_object_id + k := by
  intro dss
  induction dss with
  | nil =>
    intro s evs h
    refine ⟨0, by rw [runTrace_nil]; rfl, ?_⟩
    rw [runTrace_nil]
    show s.next_object_id = s.next_object_id + 0
    omega
  | cons ds rest ih =>
    intro s evs h
    have sp := updateFull_spec s ds h.keys_nodup h.keys_lt
    obtain ⟨k2, hk1, hk2⟩ := ih (s.updateFull ds).tracker
      (evs ++ (s.updateFull ds).countEvents) (TInv_step s ds evs h)
    refine ⟨(s.updateFull ds).new_objects.length + k2, ?_, ?_⟩
    · rw [runTrace_cons]
      simp only [List.map_cons, List.flatten_cons]
      rw [hk1, sp.next_eq]
      have hr := List.range'_append s.next_object_id (s.updateFull ds).new_objects.length k2 1
      simp only [Nat.one_mul] at hr
      rw [show k2 + (s.updateFull ds).new_objects.length =
        (s.updateFull ds).new_objects.length + k2 from by omega] at hr
      rw [← hr]
      congr 1
      exact sp.new_eq
    · rw [runTrace_cons]
      simp only []
      rw [hk2, sp.next_eq]
      omega

theorem greedySpecAux_zero (dthr : ℚ) (objCents dcents : List (ℤ × ℤ)) (acc : List (ℕ × ℕ)) :
    greedySpecAux dthr objCents dcents 0 acc = acc := rfl

theorem matchPairs_append (a b : List MatchRec) :
    matchPairs (a ++ b) = matchPairs a ++ matchPairs b := by
  unfold matchPairs
  rw [List.map_append]

theorem any_map_list {α β : Type} (l : List α) (f : α → β) (p : β → Bool) :
    (l.map f).any p = l.any (fun a => p (f a)) := by
  induction l with
  | nil => rfl
  | cons x rest ih =>
    simp only [List.map_cons, List.any_cons, ih]

theorem freeCells_eq_pairs (ms : List MatchRec) (n m : ℕ) :
    freeCells ms n m =
      (rowMajor n m).filter
        (fun ij => !((matchPairs ms).any (fun p => p.1 == ij.1)) &&
          !((matchPairs ms).any (fun p => p.2 == ij.2))) := by
  unfold freeCells matchPairs
  congr 1
  funext ij
  rw [any_map_list ms (fun m => (m.row, m.col)) (fun p => p.1 == ij.1)]
  rw [any_map_list ms (fun m => (m.row, m.col)) (fun p => p.2 == ij.2)]

theorem greedyStep_stuck (dthr mthr : ℚ) (pthr : ℕ) (objIds : List ℕ)
    (objCents dcents : List (ℤ × ℤ)) (g : GreedyState)
    (h : ∀ ij, argminCell (freeCells g.mrecs objIds.length dcents.length)
        (cellVal objCents dcents) = some ij →
      sqrtLtQ (cellVal objCents dcents ij) dthr = false) :
    greedyStep dthr mthr pthr objIds objCents dcents g = g := by
  unfold greedyStep
  cases harg : argminCell (freeCells g.mrecs objIds.length dcents.length)
      (cellVal objCents dcents) with
  | none => rfl
  | some ij =>
    have h2 := h ij harg
    simp only [h2]
    rfl

theorem greedyLoop_fix (dthr mthr : ℚ) (pthr : ℕ) (objIds : List ℕ)
    (objCents dcents : List (ℤ × ℤ)) (g : GreedyState)
    (h : greedyStep dthr mthr pthr objIds objCents dcents g = g) :
    ∀ k, greedyLoop dthr mthr pthr objIds objCents dcents k g = g := by
  intro k
  induction k with
  | zero => rfl
  | succ k ih =>
    show greedyLoop dthr mthr pthr objIds objCents dcents k
      (greedyStep dthr mthr pthr objIds objCents dcents g) = g
    rw [h]
    exact ih

theorem greedyLoop_spec_pairs (dthr mthr : ℚ) (pthr : ℕ) (objIds : List ℕ)
    (objCents dcents : List (ℤ × ℤ))
    (hlen : objIds.length = objCents.length) :
    ∀ (k : ℕ) (g : GreedyState), g.objs.map (fun p => p.1) = objIds →
    matchPairs (greedyLoop dthr mthr pthr objIds objCents dcents k g).mrecs =
      greedySpecAux dthr objCents dcents k (matchPairs g.mrecs) := by
  intro k
  induction k with
  | zero =>
    intro g hkeys
    rfl
  | succ k ih =>
    intro g hkeys
    show matchPairs (greedyLoop dthr mthr pthr objIds objCents dcents k
      (greedyStep dthr mthr pthr objIds objCents dcents g)).mrecs =
      greedySpecAux dthr objCents dcents (k + 1) (matchPairs g.mrecs)
    have hcells : (rowMajor objCents.length dcents.length).filter
        (fun ij => !((matchPairs g.mrecs).any (fun p => p.1 == ij.1)) &&
          !((matchPairs g.mrecs).any (fun p => p.2 == ij.2))) =
        freeCells g.mrecs objIds.length dcents.length := by
      rw [freeCells_eq_pairs, hlen]
    have hspec : greedySpecAux dthr objCents dcents (k + 1) (matchPairs g.mrecs) =
        match argminCell (freeCells g.mrecs objIds.length dcents.length)
            (cellVal objCents dcents) with
        | none => matchPairs g.mrecs
        | some ij =>
          if sqrtLtQ (cellVal objCents dcents ij) dthr then
            greedySpecAux dthr objCents dcents k (matchPairs g.mrecs ++ [ij])
          else matchPairs g.mrecs := by
      show (match argminCell ((rowMajor objCents.length dcents.length).filter
          (fun ij => !((matchPairs g.mrecs).any (fun p => p.1 == ij.1)) &&
            !((matchPairs g.mrecs).any (fun p => p.2 == ij.2))))
          (cellVal objCents dcents) with
        | none => matchPairs g.mrecs
        | some ij =>
          if sqrtLtQ (cellVal objCents dcents ij) dthr then
            greedySpecAux dthr objCents dcents k (matchPairs g.mrecs ++ [ij])
          else matchPairs g.mrecs) = _
      rw [hcells]
    rw [hspec]
    cases harg : argminCell (freeCells g.mrecs objIds.length dcents.length)
        (cellVal objCents dcents) with
    | none =>
      have hstk : greedyStep dthr mthr pthr objIds objCents dcents g = g := by
        apply greedyStep_stuck
        intro ij hij
        rw [harg] at hij
        cases hij
      rw [hstk, greedyLoop_fix dthr mthr pthr objIds objCents dcents g hstk k]
    | some ij =>
      by_cases hth : sqrtLtQ (cellVal objCents dcents ij) dthr = true
      · simp only [hth, if_true]
        obtain ⟨hi, hj, hrow, hcol⟩ := mem_freeCells _ _ _ _ (argminCell_mem _ _ _ harg)
        have hoidmem : objIds.getD ij.1 0 ∈ objIds := by
          cases hq : objIds.get? ij.1 with
          | none =>
            have h3 := List.get?_eq_none.mp hq
            omega
          | some a =>
            rw [getD_eq_of_get? objIds ij.1 a 0 hq]
            exact List.get?_mem hq
        have hlook : ∃ o, lookupObj g.objs (objIds.getD ij.1 0) = some o := by
          have h3 : (lookupObj g.objs (objIds.getD ij.1 0)).isSome = true := by
            rw [lookupObj_isSome_iff, hkeys]
            exact hoidmem
          cases hq : lookupObj g.objs (objIds.getD ij.1 0) with
          | none =>
            rw [hq] at h3
            cases h3
          | some o => exact ⟨o, rfl⟩
        obtain ⟨o, ho⟩ := hlook
        have hstep : greedyStep dthr mthr pthr objIds objCents dcents g =
            { objs := updObj g.objs (objIds.getD ij.1 0)
                (fun _ => (applyMatchObj mthr pthr (dcents.getD ij.2 (0, 0)) o).1)
              counts := if (applyMatchObj mthr pthr (dcents.getD ij.2 (0, 0)) o).2
                then bumpCount g.counts o.cls else g.counts
              mrecs := g.mrecs ++
                [{ row := ij.1, col := ij.2, oid := objIds.getD ij.1 0,
                   oldC := o.centroid, newC := dcents.getD ij.2 ((0 : ℤ), (0 : ℤ)),
                   cls := o.cls,
                   countedNow := (applyMatchObj mthr pthr (dcents.getD ij.2 (0, 0)) o).2 }] } := by
          unfold greedyStep
          rw [harg]
          simp only [hth, if_true]
          rw [ho]
        rw [hstep]
        rw [ih _ (by rw [updObj_map_fst]; exact hkeys)]
        congr 1
        rw [matchPairs_append]
        rfl
      · have hthf : sqrtLtQ (cellVal objCents dcents ij) dthr = false :=
          Bool.eq_false_iff.mpr hth
        simp only [hthf, Bool.false_eq_true, if_false]
        have hstk : greedyStep dthr mthr pthr objIds objCents dcents g = g := by
          apply greedyStep_stuck
          intro ij2 hij2
          rw [harg] at hij2
          have h3 : ij2 = ij := by
            cases hij2
            rfl
          rw [h3]
          exact hthf
        rw [hstk, greedyLoop_fix dthr mthr pthr objIds objCents dcents g hstk k]

theorem unmatched_run : ∀ (dss : List (List Detection)) (s : VehicleTracker)
    (evs : List (ℕ × VClass)) (id : ℕ), TInv s evs → id < s.next_object_id →
    (∀ r ∈ (runTrace s dss).2, (∀ mr ∈ r.mrecs, mr.oid ≠ id) ∧ (∀ e ∈ r.rEvents, e.2 ≠ id)) →
    ∀ p ∈ (runTrace s dss).1.tracked_objects, p.1 = id →
    ∃ q ∈ s.tracked_objects, q.1 = id ∧ p.2.disappeared = q.2.disappeared + dss.length := by
  intro dss
  induction dss with
  | nil =>
    intro s evs id hi hlt hun p hp hpid
    rw [runTrace_nil] at hp
    exact ⟨p, hp, hpid, rfl⟩
  | cons ds rest ih =>
    intro s evs id hi hlt hun p hp hpid
    rw [runTrace_cons] at hp hun
    have sp := updateFull_spec s ds hi.keys_nodup hi.keys_lt
    have hlt2 : id < (s.updateFull ds).tracker.next_object_id := by
      rw [sp.next_eq]
      omega
    have hun2 : ∀ r ∈ (runTrace (s.updateFull ds).tracker rest).2,
        (∀ mr ∈ r.mrecs, mr.oid ≠ id) ∧ (∀ e ∈ r.rEvents, e.2 ≠ id) := by
      intro r hr
      exact hun r (List.mem_cons_of_mem _ hr)
    obtain ⟨q2, hq2mem, hq2id, hq2d⟩ := ih (s.updateFull ds).tracker
      (evs ++ (s.updateFull ds).countEvents) id (TInv_step s ds evs hi) hlt2 hun2 p hp hpid
    have hhead := hun (s.updateFull ds) (List.mem_cons_self _ _)
    rcases UpdateSpec_classify s ds (s.updateFull ds) sp q2 hq2mem with
      ⟨hnew, d, i, hd, hfresh⟩ | ⟨o, mr, hmr, hoid, ho, hobj, hcn⟩ |
      ⟨o, e, hev, hev2, ho, hnomr, d, hd, hobj⟩ | ⟨o, ho, hnomr, hnoev, hobj, hsurv⟩
    · exfalso
      rw [sp.new_eq] at hnew
      have h3 := (List.mem_range'_1.mp hnew).1
      rw [hq2id] at h3
      omega
    · exfalso
      exact hhead.1 mr hmr (by rw [hoid, hq2id])
    · exfalso
      exact hhead.2 e hev (by rw [hev2, hq2id])
    · refine ⟨(q2.1, o), ?_, hq2id, ?_⟩
      · exact mem_of_lookupObj _ _ _ ho
      · rw [hq2d, hobj]
        simp only [List.length_cons]
        omega

theorem zip_get?_of {α β : Type} :
    ∀ (a : List α) (b : List β) (i : ℕ) (x : α) (y : β),
    a.get? i = some x → b.get? i = some y →
    (a.zip b).get? i = some (x, y) := by
  intro a
  induction a with
  | nil =>
    intro b i x y hx
    cases hx
  | cons xa ra ih =>
    intro b i x y hx hy
    cases b with
    | nil => cases hy
    | cons yb rb =>
      cases i with
      | zero =>
        have h1 : some xa = some x := hx
        have h2 : some yb = some y := hy
        cases h1
        cases h2
        rfl
      | succ j => exact ih rb j x y hx hy

theorem runTrace_replicate_empty (t : VehicleTracker) : ∀ k,
    (runTrace t (List.replicate k [])).1.vehicle_counts = t.vehicle_counts ∧
    (runTrace t (List.replicate k [])).1.next_object_id = t.next_object_id ∧
    ∀ r ∈ (runTrace t (List.replicate k [])).2, r.new_objects = [] := by
  intro k
  induction k generalizing t with
  | zero =>
    refine ⟨rfl, rfl, ?_⟩
    intro r hr
    rw [show List.replicate 0 (α := List Detection) [] = [] from rfl, runTrace_nil] at hr
    cases hr
  | succ k ih =>
    rw [List.replicate_succ, runTrace_cons]
    obtain ⟨h1, h2, h3⟩ := ih (t.updateFull []).tracker
    refine ⟨by rw [h1]; rfl, by rw [h2]; rfl, ?_⟩
    intro r hr
    rcases List.mem_cons.mp hr with hc | hc
    · rw [hc]
      rfl
    · exact h3 r hc

theorem runTrace_calls : ∀ (dss : List (List Detection)) (s : VehicleTracker)
    (evs : List (ℕ × VClass)), TInv s evs → ∀ r ∈ (runTrace s dss).2,
    ∃ (t2 : VehicleTracker) (ds2 : List Detection) (evs2 : List (ℕ × VClass)),
      TInv t2 evs2 ∧ r = t2.updateFull ds2 ∧
      t2.distance_threshold = s.distance_threshold ∧
      t2.movement_threshold = s.movement_threshold ∧
      t2.max_disappeared = s.max_disappeared ∧
      t2.parked_threshold = s.parked_threshold := by
  intro dss
  induction dss with
  | nil =>
    intro s evs hi r hr
    rw [runTrace_nil] at hr
    cases hr
  | cons ds rest ih =>
    intro s evs hi r hr
    rw [runTrace_cons] at hr
    rcases List.mem_cons.mp hr with hc | hc
    · exact ⟨s, ds, evs, hi, hc, rfl, rfl, rfl, rfl⟩
    · obtain ⟨t2, ds2, evs2, h1, h2, h3, h4, h5, h6⟩ :=
        ih (s.updateFull ds).tracker (evs ++ (s.updateFull ds).countEvents)
          (TInv_step s ds evs hi) r hc
      obtain ⟨g1, g2, g3, g4⟩ := updateFull_config s ds
      exact ⟨t2, ds2, evs2, h1, h2, by rw [h3, g1], by rw [h4, g2], by rw [h5, g3],
        by rw [h6, g4]⟩

/-- Witness scenario: a car detection with box (0, 0, 10, 10), centroid (5, 5). -/
def wDet1 : Detection := ⟨((0 : ℚ), (0 : ℚ), (10 : ℚ), (10 : ℚ)), VClass.car, 1⟩

/-- Witness scenario: the same car moved to box (40, 0, 50, 10), centroid (45, 5). -/
def wDet2 : Detection := ⟨((40 : ℚ), (0 : ℚ), (50 : ℚ), (10 : ℚ)), VClass.car, 1⟩

/-- Witness scenario: the car barely moved, box (2, 0, 12, 10), centroid (6, 5). -/
def wDet3 : Detection := ⟨((2 : ℚ), (0 : ℚ), (12 : ℚ), (10 : ℚ)), VClass.car, 1⟩

/-- Witness scenario: a reappearance at box (120, 0, 130, 10), centroid (125, 5):
distance 120 from (5, 5) is over the distance threshold 100 but within the
1.5-times rediscovery radius 150. -/
def wDet5 : Detection := ⟨((120 : ℚ), (0 : ℚ), (130 : ℚ), (10 : ℚ)), VClass.car, 1⟩

/-- Witness scenario: one car registered on a fresh tracker
(thresholds 100 / 10, max-disappeared 3, parked threshold 5). -/
def wTrk1 : VehicleTracker := ((VehicleTracker.init 100 10 3 5).updateFull [wDet1]).tracker

/-- Witness scenario: the car seen stationary three times with parked
threshold 1, so it ends up parked. -/
def wTrkPark : VehicleTracker :=
  ((((VehicleTracker.init 100 10 3 1).updateFull [wDet1]).tracker.updateFull
    [wDet1]).tracker.updateFull [wDet1]).tracker

/-- Witness scenario: the registered car missed for one frame
(`disappeared = 1`). -/
def wTrkGone : VehicleTracker :=
  (((VehicleTracker.init 100 10 3 5).updateFull [wDet1]).tracker.updateFull []).tracker

/-- Claim C7: in every reachable tracker state, `is_parked = true` implies
`stationary_frames` exceeds the parked threshold; and on a matched frame,
movement strictly below the movement threshold (the comparison `sqrtLtQ` on
the squared displacement) increments `stationary_frames`, movement at or
above it resets `stationary_frames` to 0 and clears `is_parked`, and after
either branch the object is marked parked whenever `stationary_frames`
exceeds the parked threshold. -/
theorem claim_C7 :
    (∀ s : VehicleTracker, TrackerReachable s → ∀ p ∈ s.tracked_objects,
      p.2.is_parked = true → s.parked_threshold < p.2.stationary_frames) ∧
    (∀ (mthr : ℚ) (pthr : ℕ) (newC : ℤ × ℤ) (o : TrackedObject),
      (sqrtLtQ (distSq o.centroid newC) mthr = true →
        (applyMatchObj mthr pthr newC o).1.stationary_frames = o.stationary_frames + 1) ∧
      (sqrtLtQ (distSq o.centroid newC) mthr = false →
        (applyMatchObj mthr pthr newC o).1.stationary_frames = 0 ∧
        (applyMatchObj mthr pthr newC o).1.is_parked = false) ∧
      (pthr < (applyMatchObj mthr pthr newC o).1.stationary_frames →
        (applyMatchObj mthr pthr newC o).1.is_parked = true)) := by
  constructor
  · intro s hr p hp hpk
    obtain ⟨evs, hi⟩ := TrackerReachable_TInv s hr
    exact hi.parked_inv p hp hpk
  · intro mthr pthr newC o
    refine ⟨?_, ?_, ?_⟩
    · intro h
      rw [applyMatchObj_stationary_frames, if_pos h]
    · intro h
      refine ⟨?_, applyMatchObj_is_parked_moving mthr pthr newC o h⟩
      rw [applyMatchObj_stationary_frames, if_neg (by simp [h])]
    · intro h
      rw [applyMatchObj_stationary_frames] at h
      by_cases hb : sqrtLtQ (distSq o.centroid newC) mthr = true
      · rw [if_pos hb] at h
        rw [applyMatchObj_is_parked_stationary mthr pthr newC o hb]
        simp [h]
      · rw [if_neg hb] at h
        omega

/-- Witness for claim C7 at a concrete reachable state with a parked object
and a concrete stationary matched frame. -/
theorem claim_C7_witness :
    ((0 : ℕ),
      ({ centroid := (5, 5), disappeared := 0, cls := VClass.car, counted := false,
         stationary_frames := 2, is_parked := true, total_movement := [0, 0],
         has_moved := false } : TrackedObject)) ∈ wTrkPark.tracked_objects ∧
    wTrkPark.parked_threshold <
      ({ centroid := (5, 5), disappeared := 0, cls := VClass.car, counted := false,
         stationary_frames := 2, is_parked := true, total_movement := [0, 0],
         has_moved := false } : TrackedObject).stationary_frames ∧
    sqrtLtQ (distSq (5, 5) (6, 5)) 10 = true ∧
    (applyMatchObj 10 5 (6, 5)
      ({ centroid := (5, 5), disappeared := 0, cls := VClass.car, counted := false,
         stationary_frames := 0, is_parked := false, total_movement := [],
         has_moved := false } : TrackedObject)).1.stationary_frames = 0 + 1 := by
  refine ⟨by decide, ?_, by decide, ?_⟩
  · exact claim_C7.1 wTrkPark
      (TrackerReachable.step _ _ (TrackerReachable.step _ _
        (TrackerReachable.step _ _ (TrackerReachable.init 100 10 3 1))))
      ((0 : ℕ),
        ({ centroid := (5, 5), disappeared := 0, cls := VClass.car, counted := false,
           stationary_frames := 2, is_parked := true, total_movement := [0, 0],
           has_moved := false } : TrackedObject)) (by decide) (by decide)
  · exact (claim_C7.2 10 5 (6, 5) _).1 (by decide)

/-- Claim C8: an `update` with the empty detection list returns no new ids,
records no matches or rediscoveries, leaves `vehicle_counts` and
`next_object_id` unchanged, increments `disappeared` on every surviving
object while leaving all of its other fields unchanged, evicts exactly the
objects whose counter would exceed the max-disappeared threshold, and this
holds over arbitrarily many repeated empty calls. -/
theorem claim_C8 (t : VehicleTracker) :
    (t.updateFull []).new_objects = [] ∧
    (t.updateFull []).mrecs = [] ∧
    (t.updateFull []).rEvents = [] ∧
    (t.updateFull []).tracker.vehicle_counts = t.vehicle_counts ∧
    (t.updateFull []).tracker.next_object_id = t.next_object_id ∧
    (∀ p ∈ (t.updateFull []).tracker.tracked_objects,
      ∃ q ∈ t.tracked_objects, p.1 = q.1 ∧
        p.2 = { q.2 with disappeared := q.2.disappeared + 1 } ∧
        q.2.disappeared + 1 ≤ t.max_disappeared) ∧
    (∀ q ∈ t.tracked_objects, q.2.disappeared + 1 ≤ t.max_disappeared →
      (q.1, { q.2 with disappeared := q.2.disappeared + 1 }) ∈
        (t.updateFull []).tracker.tracked_objects) ∧
    (∀ p ∈ (t.updateFull []).tracker.tracked_objects,
      p.2.disappeared ≤ t.max_disappeared) ∧
    (∀ k, (runTrace t (List.replicate k [])).1.vehicle_counts = t.vehicle_counts ∧
      (runTrace t (List.replicate k [])).1.next_object_id = t.next_object_id ∧
      ∀ r ∈ (runTrace t (List.replicate k [])).2, r.new_objects = []) := by
  have hfwd : ∀ p ∈ (t.updateFull []).tracker.tracked_objects,
      ∃ q ∈ t.tracked_objects, p.1 = q.1 ∧
        p.2 = { q.2 with disappeared := q.2.disappeared + 1 } ∧
        q.2.disappeared + 1 ≤ t.max_disappeared := by
    intro p hp
    have hp2 : p ∈ ageUnmatchedAux t.max_disappeared [] 0 t.tracked_objects := hp
    obtain ⟨j, q, hj, he, hcase⟩ :=
      mem_ageUnmatchedAux t.max_disappeared [] t.tracked_objects 0 p hp2
    rcases hcase with ⟨hc1, _⟩ | ⟨_, hc2, hc3⟩
    · simp at hc1
    · exact ⟨q, List.get?_mem hj, he, hc3, hc2⟩
  refine ⟨rfl, rfl, rfl, rfl, rfl, hfwd, ?_, ?_, runTrace_replicate_empty t⟩
  · intro q hq hle
    obtain ⟨j, hj⟩ := List.mem_iff_get?.mp hq
    exact ageUnmatchedAux_mem_survivor t.max_disappeared [] t.tracked_objects 0 j q hj
      (by simp) hle
  · intro p hp
    obtain ⟨q, _, _, hpd, hle⟩ := hfwd p hp
    rw [hpd]
    exact hle

/-- Witness for claim C8 at a concrete tracker with one object aged by an
empty call. -/
theorem claim_C8_witness :
    (wTrk1.updateFull []).new_objects = [] ∧
    (wTrk1.updateFull []).tracker.next_object_id = wTrk1.next_object_id ∧
    (((0 : ℕ),
      ({ centroid := (5, 5), disappeared := 0, cls := VClass.car, counted := false,
         stationary_frames := 0, is_parked := false, total_movement := [],
         has_moved := false } : TrackedObject)) ∈ wTrk1.tracked_objects ∧
      ((0 : ℕ),
        ({ centroid := (5, 5), disappeared := 1, cls := VClass.car, counted := false,
           stationary_frames := 0, is_parked := false, total_movement := [],
           has_moved := false } : TrackedObject)) ∈
        (wTrk1.updateFull []).tracker.tracked_objects) := by
  refine ⟨(claim_C8 wTrk1).1, (claim_C8 wTrk1).2.2.2.2.1, by decide, ?_⟩
  exact (claim_C8 wTrk1).2.2.2.2.2.2.1
    ((0 : ℕ),
      ({ centroid := (5, 5), disappeared := 0, cls := VClass.car, counted := false,
         stationary_frames := 0, is_parked := false, total_movement := [],
         has_moved := false } : TrackedObject)) (by decide) (by decide)

/-- Claim C1: along any trace of update calls from a fresh tracker, the
per-id history of count events has at most one entry for every id; a
tracked object's `counted` flag is true exactly when its id has exactly one
count event; and every per-class vehicle count equals the number of count
events of that class. A reset tracker has the same state as a fresh one
(`TInv_reset`), so the property covers reset starts as well. -/
theorem claim_C1 (dthr mthr : ℚ) (maxd pthr : ℕ) (dss : List (List Detection)) (id : ℕ) :
    histFor id (traceCountEvents
      (runTrace (VehicleTracker.init dthr mthr maxd pthr) dss).2) ≤ 1 ∧
    (∀ o, (id, o) ∈ (runTrace (VehicleTracker.init dthr mthr maxd pthr) dss).1.tracked_objects →
      (o.counted = true ↔ histFor id (traceCountEvents
        (runTrace (VehicleTracker.init dthr mthr maxd pthr) dss).2) = 1)) ∧
    (∀ c, (runTrace (VehicleTracker.init dthr mthr maxd pthr) dss).1.vehicle_counts c =
      ((traceCountEvents (runTrace (VehicleTracker.init dthr mthr maxd pthr) dss).2).filter
        (fun e => e.2 == c)).length) := by
  have hT := TInv_runTrace dss (VehicleTracker.init dthr mthr maxd pthr) []
    (TInv_init dthr mthr maxd pthr)
  rw [List.nil_append] at hT
  refine ⟨?_, ?_, hT.counts_eq⟩
  · by_cases hm : id ∈ (runTrace (VehicleTracker.init dthr mthr maxd pthr)
        dss).1.tracked_objects.map (fun p => p.1)
    · obtain ⟨q, hq, hq2⟩ := List.mem_map.mp hm
      have h2 := hT.counted_iff q hq
      rw [hq2] at h2
      rw [h2]
      by_cases hb : q.2.counted = true <;> simp [hb]
    · exact hT.gone_le id hm
  · intro o ho
    have h2 : histFor id (traceCountEvents
        (runTrace (VehicleTracker.init dthr mthr maxd pthr) dss).2) =
        (if o.counted then 1 else 0) := hT.counted_iff (id, o) ho
    rw [h2]
    by_cases hb : o.counted = true <;> simp [hb]

/-- Witness for claim C1: car registered at (5, 5), then matched at (45, 5)
(movement 40 at or above the movement threshold 10), so id 0 has exactly one
count event and its `counted` flag is true. -/
theorem claim_C1_witness :
    histFor 0 (traceCountEvents
      (runTrace (VehicleTracker.init 100 10 3 5) [[wDet1], [wDet2]]).2) ≤ 1 ∧
    (({ centroid := (45, 5), disappeared := 0, cls := VClass.car, counted := true,
        stationary_frames := 0, is_parked := false, total_movement := [1600],
        has_moved := true } : TrackedObject).counted = true ↔
      histFor 0 (traceCountEvents
        (runTrace (VehicleTracker.init 100 10 3 5) [[wDet1], [wDet2]]).2) = 1) := by
  refine ⟨(claim_C1 100 10 3 5 [[wDet1], [wDet2]] 0).1, ?_⟩
  exact (claim_C1 100 10 3 5 [[wDet1], [wDet2]] 0).2.1
    ({ centroid := (45, 5), disappeared := 0, cls := VClass.car, counted := true,
       stationary_frames := 0, is_parked := false, total_movement := [1600],
       has_moved := true } : TrackedObject) (by decide)

/-- Claim C2: if an id's per-frame movement is strictly below the movement
threshold in every match along a trace from a fresh tracker (`sqrtLtQ` on
the squared displacement is true), then that id has no count event, any
object tracked under that id at the end has `counted = false`, and
moreover a call on a tracker with no tracked objects (pure registration)
produces no count events and leaves `vehicle_counts` unchanged. -/
theorem claim_C2 (dthr mthr : ℚ) (maxd pthr : ℕ) (dss : List (List Detection)) (id : ℕ)
    (hsmall : ∀ r ∈ (runTrace (VehicleTracker.init dthr mthr maxd pthr) dss).2,
      ∀ mr ∈ r.mrecs, mr.oid = id →
      sqrtLtQ (distSq mr.oldC mr.newC) mthr = true) :
    histFor id (traceCountEvents
      (runTrace (VehicleTracker.init dthr mthr maxd pthr) dss).2) = 0 ∧
    (∀ o, (id, o) ∈ (runTrace (VehicleTracker.init dthr mthr maxd pthr) dss).1.tracked_objects →
      o.counted = false) ∧
    (∀ (t2 : VehicleTracker) (ds2 : List Detection), t2.tracked_objects = [] →
      (t2.updateFull ds2).countEvents = [] ∧
      (t2.updateFull ds2).tracker.vehicle_counts = t2.vehicle_counts) := by
  have hz : histFor id (traceCountEvents
      (runTrace (VehicleTracker.init dthr mthr maxd pthr) dss).2) = 0 := by
    apply histFor_zero_of
    intro e he hc
    unfold traceCountEvents at he
    obtain ⟨l, hl, hel⟩ := List.mem_flatten.mp he
    obtain ⟨r, hr, hlr⟩ := List.mem_map.mp hl
    rw [← hlr] at hel
    obtain ⟨mr, hmr, hcn, hoid, _⟩ := mem_matchCountEvents r.mrecs e hel
    obtain ⟨t2, ds2, evs2, hI2, hre, hcd, hcm, hcx, hcp⟩ := runTrace_calls dss
      (VehicleTracker.init dthr mthr maxd pthr) [] (TInv_init dthr mthr maxd pthr) r hr
    have sp := updateFull_spec t2 ds2 hI2.keys_nodup hI2.keys_lt
    have hmr2 : mr ∈ (t2.updateFull ds2).mrecs := by rw [← hre]; exact hmr
    obtain ⟨o, ho, holdC, _, _, hcnEq, _⟩ := sp.mrec_spec mr hmr2
    have h2 : (applyMatchObj t2.movement_threshold t2.parked_threshold mr.newC o).2 = true := by
      rw [← hcnEq]
      exact hcn
    rw [applyMatchObj_snd] at h2
    have hs := hsmall r hr mr hmr (by rw [hoid, hc])
    have hcm2 : t2.movement_threshold = mthr := hcm
    rw [← holdC, hcm2] at h2
    rw [hs] at h2
    simp at h2
  refine ⟨hz, ?_, ?_⟩
  · intro o ho
    have hT := TInv_runTrace dss (VehicleTracker.init dthr mthr maxd pthr) []
      (TInv_init dthr mthr maxd pthr)
    rw [List.nil_append] at hT
    have h2 : histFor id (traceCountEvents
        (runTrace (VehicleTracker.init dthr mthr maxd pthr) dss).2) =
        (if o.counted then 1 else 0) := hT.counted_iff (id, o) ho
    rw [hz] at h2
    by_cases hb : o.counted = true
    · rw [if_pos hb] at h2
      cases h2
    · exact Bool.eq_false_iff.mpr hb
  · intro t2 ds2 hemp
    cases ds2 with
    | nil => exact ⟨rfl, rfl⟩
    | cons d rest =>
      have hie : t2.tracked_objects.isEmpty = true := by
        rw [hemp]
        rfl
      have hres : VehicleTracker.updateFull t2 (d :: rest) =
          { tracker := (registerNewObjects t2 (((d :: rest).map (fun d2 => d2.cls)).zip
              ((d :: rest).map (fun d2 => calculate_centroid d2.box)))).1
            new_objects := (registerNewObjects t2 (((d :: rest).map (fun d2 => d2.cls)).zip
              ((d :: rest).map (fun d2 => calculate_centroid d2.box)))).2
            mrecs := []
            rEvents := [] } := by
        unfold VehicleTracker.updateFull
        rw [if_pos hie]
      rw [hres]
      exact ⟨rfl, (registerNewObjects_counts t2 _).1⟩

/-- Witness for claim C2: car registered at (5, 5), then matched at (6, 5)
(movement 1 below the threshold 10); id 0 gets no count event and stays
uncounted. -/
theorem claim_C2_witness :
    (∀ r ∈ (runTrace (VehicleTracker.init 100 10 3 5) [[wDet1], [wDet3]]).2,
      ∀ mr ∈ r.mrecs, mr.oid = 0 →
      sqrtLtQ (distSq mr.oldC mr.newC) 10 = true) ∧
    histFor 0 (traceCountEvents
      (runTrace (VehicleTracker.init 100 10 3 5) [[wDet1], [wDet3]]).2) = 0 := by
  refine ⟨by decide, ?_⟩
  exact (claim_C2 100 10 3 5 [[wDet1], [wDet3]] 0 (by decide)).1

/-- Claim C5: in every reachable state, no tracked object's `disappeared`
counter exceeds the max-disappeared threshold (eviction happens in the same
call, so over-threshold objects never persist); and an id that goes
unmatched (no greedy match and no rediscovery) for max_disappeared + 1
consecutive calls is absent from the tracked state afterwards. -/
theorem claim_C5 :
    (∀ s : VehicleTracker, TrackerReachable s →
      ∀ p ∈ s.tracked_objects, p.2.disappeared ≤ s.max_disappeared) ∧
    (∀ (s : VehicleTracker) (evs : List (ℕ × VClass)) (id : ℕ) (dss : List (List Detection)),
      TInv s evs → id < s.next_object_id → dss.length = s.max_disappeared + 1 →
      (∀ r ∈ (runTrace s dss).2,
        (∀ mr ∈ r.mrecs, mr.oid ≠ id) ∧ (∀ e ∈ r.rEvents, e.2 ≠ id)) →
      id ∉ (runTrace s dss).1.tracked_objects.map (fun p => p.1)) := by
  constructor
  · intro s hr p hp
    obtain ⟨evs, hi⟩ := TrackerReachable_TInv s hr
    exact hi.disap_le p hp
  · intro s evs id dss hi hlt hlen hun hmem
    obtain ⟨q, hq, hq2⟩ := List.mem_map.mp hmem
    obtain ⟨q0, hq0, hq0id, hd⟩ := unmatched_run dss s evs id hi hlt hun q hq hq2
    have hfin := TInv_runTrace dss s evs hi
    have h1 := hfin.disap_le q hq
    have h2 := (runTrace_config dss s).2.2.1
    rw [h2] at h1
    omega

/-- Witness for claim C5: the registered car misses max_disappeared + 1 = 4
consecutive empty frames and is gone. -/
theorem claim_C5_witness :
    ((0 : ℕ),
      ({ centroid := (5, 5), disappeared := 0, cls := VClass.car, counted := false,
         stationary_frames := 0, is_parked := false, total_movement := [],
         has_moved := false } : TrackedObject)).2.disappeared ≤ wTrk1.max_disappeared ∧
    (0 : ℕ) ∉ (runTrace wTrk1 [[], [], [], []]).1.tracked_objects.map (fun p => p.1) := by
  constructor
  · exact claim_C5.1 wTrk1 (TrackerReachable.step _ _ (TrackerReachable.init 100 10 3 5))
      ((0 : ℕ),
        ({ centroid := (5, 5), disappeared := 0, cls := VClass.car, counted := false,
           stationary_frames := 0, is_parked := false, total_movement := [],
           has_moved := false } : TrackedObject)) (by decide)
  · exact claim_C5.2 wTrk1 [] 0 [[], [], [], []]
      (TInv_step (VehicleTracker.init 100 10 3 5) [wDet1] [] (TInv_init 100 10 3 5))
      (by decide) (by decide) (by decide)

/-- Claim C6: in every reachable state every tracked key is strictly below
`next_object_id`; along any trace from a fresh tracker the concatenation of
the per-call lists of genuinely new ids is exactly `range' 0 k` (so
`next_object_id` equals the total number k of new registrations since the
start, rediscoveries excluded) and contains no duplicate, so no id — in
particular no evicted id — is ever assigned twice in a session. -/
theorem claim_C6 (dthr mthr : ℚ) (maxd pthr : ℕ) (dss : List (List Detection)) :
    (∀ s : VehicleTracker, TrackerReachable s →
      ∀ id ∈ s.tracked_objects.map (fun p => p.1), id < s.next_object_id) ∧
    (∃ k, ((runTrace (VehicleTracker.init dthr mthr maxd pthr) dss).2.map
        (fun r => r.new_objects)).flatten = List.range' 0 k ∧
      (runTrace (VehicleTracker.init dthr mthr maxd pthr) dss).1.next_object_id = k ∧
      (((runTrace (VehicleTracker.init dthr mthr maxd pthr) dss).2.map
        (fun r => r.new_objects)).flatten).Nodup) := by
  constructor
  · intro s hr id hid
    obtain ⟨evs, hi⟩ := TrackerReachable_TInv s hr
    exact hi.keys_lt id hid
  · obtain ⟨k, h1, h2⟩ := runTrace_ids dss (VehicleTracker.init dthr mthr maxd pthr) []
      (TInv_init dthr mthr maxd pthr)
    refine ⟨k, by rw [h1]; rfl, ?_, ?_⟩
    · rw [h2]
      show 0 + k = k
      omega
    · rw [h1]
      exact List.nodup_range' _ _

/-- Claim C3: with non-empty tracked objects and detections, the source's
greedy pass binds exactly the (row, column) pairs of the spec's repeated
global-argmin selection over the distance matrix (`greedySpecPairs`, with
first-occurrence row-major tie-breaking and row/column invalidation, up to
min(#objects, #detections) rounds, stopping once the smallest remaining
entry is not strictly below the threshold); no row or column is bound
twice; and every bound pair has distance strictly below the threshold, its
centroid replaced by the detection's centroid, `disappeared` reset to 0,
and the squared movement distance prepended to `total_movement`. -/
theorem claim_C3 (t : VehicleTracker) (dets : List Detection)
    (hr : TrackerReachable t) (hne : t.tracked_objects ≠ []) (hdne : dets ≠ []) :
    matchPairs (t.updateFull dets).mrecs =
      greedySpecPairs t.distance_threshold
        (t.tracked_objects.map (fun p => p.2.centroid))
        (dets.map (fun d => calculate_centroid d.box)) ∧
    ((t.updateFull dets).mrecs.map (fun m => m.row)).Nodup ∧
    ((t.updateFull dets).mrecs.map (fun m => m.col)).Nodup ∧
    (∀ mr ∈ (t.updateFull dets).mrecs,
      sqrtLtQ (distSq mr.oldC mr.newC) t.distance_threshold = true ∧
      ∃ o, lookupObj t.tracked_objects mr.oid = some o ∧ mr.oldC = o.centroid ∧
        ∃ o2, lookupObj (t.updateFull dets).tracker.tracked_objects mr.oid = some o2 ∧
          o2.centroid = mr.newC ∧ o2.disappeared = 0 ∧
          o2.total_movement = distSq mr.oldC mr.newC :: o.total_movement) := by
  obtain ⟨evs, hi⟩ := TrackerReachable_TInv t hr
  have sp := updateFull_spec t dets hi.keys_nodup hi.keys_lt
  refine ⟨?_, sp.row_nodup, sp.col_nodup, ?_⟩
  · obtain ⟨d, rest, hde⟩ := List.exists_cons_of_ne_nil hdne
    subst hde
    have hie : t.tracked_objects.isEmpty = false := by
      cases hobj : t.tracked_objects with
      | nil => exact absurd hobj hne
      | cons a b => rfl
    have hres : VehicleTracker.updateFull t (d :: rest) =
        matchAndUpdate t (d :: rest) ((d :: rest).map (fun d2 => calculate_centroid d2.box)) := by
      unfold VehicleTracker.updateFull
      rw [if_neg (by simp [hie])]
    rw [hres]
    have hlen : (t.tracked_objects.map (fun p => p.1)).length =
        (t.tracked_objects.map (fun p => p.2.centroid)).length := by
      rw [List.length_map, List.length_map]
    have h3 := greedyLoop_spec_pairs t.distance_threshold t.movement_threshold
      t.parked_threshold (t.tracked_objects.map (fun p => p.1))
      (t.tracked_objects.map (fun p => p.2.centroid))
      ((d :: rest).map (fun d2 => calculate_centroid d2.box)) hlen
      (min (t.tracked_objects.map (fun p => p.1)).length
        ((d :: rest).map (fun d2 => calculate_centroid d2.box)).length)
      { objs := t.tracked_objects, counts := t.vehicle_counts, mrecs := [] } rfl
    have hmu : (matchAndUpdate t (d :: rest)
        ((d :: rest).map (fun d2 => calculate_centroid d2.box))).mrecs =
        (greedyLoop t.distance_threshold t.movement_threshold t.parked_threshold
          (t.tracked_objects.map (fun p => p.1))
          (t.tracked_objects.map (fun p => p.2.centroid))
          ((d :: rest).map (fun d2 => calculate_centroid d2.box))
          (min (t.tracked_objects.map (fun p => p.1)).length
            ((d :: rest).map (fun d2 => calculate_centroid d2.box)).length)
          { objs := t.tracked_objects, counts := t.vehicle_counts, mrecs := [] }).mrecs := rfl
    rw [hmu, h3]
    unfold greedySpecPairs
    rw [hlen]
    rfl
  · intro mr hmr
    obtain ⟨o, ho, holdC, hcls, hdlt, hcnEq, hlook⟩ := sp.mrec_spec mr hmr
    refine ⟨hdlt, o, ho, holdC, _, hlook, applyMatchObj_centroid _ _ _ _,
      applyMatchObj_disappeared _ _ _ _, ?_⟩
    rw [applyMatchObj_total_movement, holdC]

/-- Witness for claim C3: the registered car matched against a nearby
detection; the source's greedy pass agrees with the spec's selection and
binds row 0 to column 0. -/
theorem claim_C3_witness :
    matchPairs (wTrk1.updateFull [wDet3]).mrecs =
      greedySpecPairs wTrk1.distance_threshold
        (wTrk1.tracked_objects.map (fun p => p.2.centroid))
        ([wDet3].map (fun d => calculate_centroid d.box)) ∧
    ((wTrk1.updateFull [wDet3]).mrecs.map (fun m => m.row)).Nodup := by
  have h := claim_C3 wTrk1 [wDet3]
    (TrackerReachable.step _ _ (TrackerReachable.init 100 10 3 5))
    (by decide) (by decide)
  exact ⟨h.1, h.2.1⟩

/-- Claim C4: when some tracked object qualifies for rediscovery of an
unmatched detection (disappeared in (0, max], within 1.5 times the distance
threshold of the detection's centroid), the first qualifying object in
iteration order is re-bound (centroid set to the detection's centroid,
`disappeared` reset to 0, no new id, the event recorded); when none
qualifies, a brand-new object is registered; and at call level every
rediscovered id was already tracked before the call, got its centroid and
`disappeared` rewritten, and does not appear in the returned list of new
ids. -/
theorem claim_C4 :
    (∀ (dthr : ℚ) (maxd i : ℕ) (cls : VClass) (c : ℤ × ℤ) (s : TailState),
      (∃ p ∈ s.objs, qualifiesRedisc dthr maxd c p.2 = true) →
      ∃ (pre post : List (ℕ × TrackedObject)) (oid : ℕ) (o : TrackedObject),
        s.objs = pre ++ (oid, o) :: post ∧
        qualifiesRedisc dthr maxd c o = true ∧
        (∀ q ∈ pre, qualifiesRedisc dthr maxd c q.2 = false) ∧
        unmatchedDetStep dthr maxd i cls c s =
          { s with
            objs := updObj s.objs oid (fun o2 => { o2 with centroid := c, disappeared := 0 }),
            rEvents := s.rEvents ++ [(i, oid)] }) ∧
    (∀ (dthr : ℚ) (maxd i : ℕ) (cls : VClass) (c : ℤ × ℤ) (s : TailState),
      (∀ p ∈ s.objs, qualifiesRedisc dthr maxd c p.2 = false) →
      unmatchedDetStep dthr maxd i cls c s =
        { s with objs := s.objs ++ [(s.nextId, freshObject cls c)],
                 nextId := s.nextId + 1,
                 newIds := s.newIds ++ [s.nextId] }) ∧
    (∀ (t : VehicleTracker) (dets : List Detection), TrackerReachable t →
      ∀ e ∈ (t.updateFull dets).rEvents,
        e.2 ∉ (t.updateFull dets).new_objects ∧
        ∃ o d, lookupObj t.tracked_objects e.2 = some o ∧ dets.get? e.1 = some d ∧
          lookupObj (t.updateFull dets).tracker.tracked_objects e.2 =
            some { o with centroid := calculate_centroid d.box, disappeared := 0 }) := by
  refine ⟨?_, ?_, ?_⟩
  · intro dthr maxd i cls c s hex
    cases hf : findRediscovery dthr maxd c s.objs with
    | none =>
      exfalso
      obtain ⟨p, hp, hq⟩ := hex
      have h2 := findRediscovery_none_spec dthr maxd c s.objs hf p hp
      rw [hq] at h2
      cases h2
    | some oid =>
      obtain ⟨pre, post, o, he, hq, hpre⟩ := findRediscovery_some_spec dthr maxd c s.objs oid hf
      refine ⟨pre, post, oid, o, he, hq, hpre, ?_⟩
      unfold unmatchedDetStep
      rw [hf]
  · intro dthr maxd i cls c s hall
    have hf : findRediscovery dthr maxd c s.objs = none := by
      unfold findRediscovery
      rw [List.find?_eq_none.mpr]
      · rfl
      · intro p hp
        rw [hall p hp]
        exact Bool.false_ne_true
    unfold unmatchedDetStep
    rw [hf]
  · intro t dets hr e he
    obtain ⟨evs, hi⟩ := TrackerReachable_TInv t hr
    have sp := updateFull_spec t dets hi.keys_nodup hi.keys_lt
    obtain ⟨hnomr, o, d, ho, hd, hlook⟩ := sp.redisc_spec e he
    refine ⟨?_, o, d, ho, hd, hlook⟩
    intro hmem
    rw [sp.new_eq] at hmem
    have h1 := (List.mem_range'_1.mp hmem).1
    have h2 : e.2 ∈ t.tracked_objects.map (fun p => p.1) :=
      List.mem_map.mpr ⟨(e.2, o), mem_of_lookupObj _ _ _ ho, rfl⟩
    have h3 := hi.keys_lt e.2 h2
    omega

/-- Witness for claim C4: the car, missed for one frame, is rediscovered by
a detection 120 away (within 1.5 times the threshold 100) and its id 0 is
not returned as new. -/
theorem claim_C4_witness :
    ((0 : ℕ), (0 : ℕ)) ∈ (wTrkGone.updateFull [wDet5]).rEvents ∧
    (0 : ℕ) ∉ (wTrkGone.updateFull [wDet5]).new_objects := by
  refine ⟨by decide, ?_⟩
  exact (claim_C4.2.2 wTrkGone [wDet5]
    (TrackerReachable.step _ _ (TrackerReachable.step _ _
      (TrackerReachable.init 100 10 3 5)))
    (0, 0) (by decide)).1

/-- Claim C9: registration on an empty tracked set creates, for detection i,
a fresh object under id next_id + i with the detection's centroid and class
and all counters zeroed, returns the ids in detection order, and leaves
`vehicle_counts` unchanged; in general every id returned as new holds a
fresh object built from some detection, and the returned ids are
consecutive from the pre-call next_id; on a fresh tracker a one-detection
update returns exactly [0] with all counts 0 and total count 0; and a fresh
object has disappeared = 0, counted = false, is_parked = false,
has_moved = false, stationary_frames = 0, empty total_movement, the given
centroid and the given class. -/
theorem claim_C9 :
    (∀ (t : VehicleTracker) (dets : List Detection), t.tracked_objects = [] → dets ≠ [] →
      (t.updateFull dets).new_objects = List.range' t.next_object_id dets.length ∧
      (t.updateFull dets).tracker.vehicle_counts = t.vehicle_counts ∧
      ∀ (i : ℕ) (d : Detection), dets.get? i = some d →
        lookupObj (t.updateFull dets).tracker.tracked_objects (t.next_object_id + i) =
          some (freshObject d.cls (calculate_centroid d.box))) ∧
    (∀ (t : VehicleTracker) (dets : List Detection), TrackerReachable t →
      (t.updateFull dets).new_objects =
        List.range' t.next_object_id (t.updateFull dets).new_objects.length ∧
      ∀ id ∈ (t.updateFull dets).new_objects, ∃ i d, dets.get? i = some d ∧
        lookupObj (t.updateFull dets).tracker.tracked_objects id =
          some (freshObject d.cls (calculate_centroid d.box))) ∧
    (∀ (dthr mthr : ℚ) (maxd pthr : ℕ) (d : Detection),
      ((VehicleTracker.init dthr mthr maxd pthr).updateFull [d]).new_objects = [0] ∧
      (∀ c, ((VehicleTracker.init dthr mthr maxd pthr).updateFull [d]).tracker.vehicle_counts c = 0) ∧
      ((VehicleTracker.init dthr mthr maxd pthr).updateFull [d]).tracker.get_total_count = 0) ∧
    (∀ (cls : VClass) (c : ℤ × ℤ),
      (freshObject cls c).disappeared = 0 ∧ (freshObject cls c).counted = false ∧
      (freshObject cls c).is_parked = false ∧ (freshObject cls c).has_moved = false ∧
      (freshObject cls c).stationary_frames = 0 ∧ (freshObject cls c).total_movement = [] ∧
      (freshObject cls c).centroid = c ∧ (freshObject cls c).cls = cls) := by
  have hreg : ∀ (t : VehicleTracker) (dets : List Detection), t.tracked_objects = [] →
      dets ≠ [] →
      (t.updateFull dets).new_objects = List.range' t.next_object_id dets.length ∧
      (t.updateFull dets).tracker.vehicle_counts = t.vehicle_counts ∧
      ∀ (i : ℕ) (d : Detection), dets.get? i = some d →
        lookupObj (t.updateFull dets).tracker.tracked_objects (t.next_object_id + i) =
          some (freshObject d.cls (calculate_centroid d.box)) := by
    intro t dets hemp hdne
    obtain ⟨d0, rest, hde⟩ := List.exists_cons_of_ne_nil hdne
    subst hde
    have hie : t.tracked_objects.isEmpty = true := by
      rw [hemp]
      rfl
    have hres : VehicleTracker.updateFull t (d0 :: rest) =
        { tracker := (registerNewObjects t (((d0 :: rest).map (fun d2 => d2.cls)).zip
            ((d0 :: rest).map (fun d2 => calculate_centroid d2.box)))).1
          new_objects := (registerNewObjects t (((d0 :: rest).map (fun d2 => d2.cls)).zip
            ((d0 :: rest).map (fun d2 => calculate_centroid d2.box)))).2
          mrecs := []
          rEvents := [] } := by
      unfold VehicleTracker.updateFull
      rw [if_pos hie]
    rw [hres]
    have hlz : (((d0 :: rest).map (fun d2 => d2.cls)).zip
        ((d0 :: rest).map (fun d2 => calculate_centroid d2.box))).length =
        (d0 :: rest).length := by
      rw [List.length_zip, List.length_map, List.length_map, Nat.min_self]
    refine ⟨?_, (registerNewObjects_counts t _).1, ?_⟩
    · rw [registerNewObjects_ids, hlz]
    · intro i d hd
      have hlt2 : ∀ id ∈ t.tracked_objects.map (fun p => p.1), id < t.next_object_id := by
        intro id hid
        rw [hemp] at hid
        cases hid
      have h1 : ((d0 :: rest).map (fun d2 => d2.cls)).get? i = some d.cls := by
        rw [List.get?_map, hd]
        rfl
      have h2 : ((d0 :: rest).map (fun d2 => calculate_centroid d2.box)).get? i =
          some (calculate_centroid d.box) := by
        rw [List.get?_map, hd]
        rfl
      exact registerNewObjects_lookup _ t hlt2 i (d.cls, calculate_centroid d.box)
        (zip_get?_of _ _ i _ _ h1 h2)
  refine ⟨hreg, ?_, ?_, ?_⟩
  · intro t dets hr
    obtain ⟨evs, hi⟩ := TrackerReachable_TInv t hr
    have sp := updateFull_spec t dets hi.keys_nodup hi.keys_lt
    exact ⟨sp.new_eq, sp.new_spec⟩
  · intro dthr mthr maxd pthr d
    obtain ⟨h1, h2, h3⟩ := hreg (VehicleTracker.init dthr mthr maxd pthr) [d] rfl (by simp)
    refine ⟨by rw [h1]; rfl, ?_, ?_⟩
    · intro c
      rw [h2]
      rfl
    · show (VClass.all.map
        ((VehicleTracker.init dthr mthr maxd pthr).updateFull [d]).tracker.vehicle_counts).sum = 0
      rw [h2]
      rfl
  · intro cls c
    exact ⟨rfl, rfl, rfl, rfl, rfl, rfl, rfl, rfl⟩

/-- Witness for claim C9 on a fresh tracker and the single car detection:
id 0 is registered with the fresh object. -/
theorem claim_C9_witness :
    ((VehicleTracker.init 100 10 3 5).updateFull [wDet1]).new_objects = List.range' 0 1 ∧
    lookupObj ((VehicleTracker.init 100 10 3 5).updateFull [wDet1]).tracker.tracked_objects 0 =
      some (freshObject wDet1.cls (calculate_centroid wDet1.box)) := by
  have h := claim_C9.1 (VehicleTracker.init 100 10 3 5) [wDet1] rfl (by simp)
  exact ⟨h.1, h.2.2 0 wDet1 rfl⟩

/-- Claim C10 (implicit): a rediscovery re-binding changes only the object's
centroid (to the detection's centroid) and its `disappeared` counter (to 0);
`counted`, `has_moved`, `stationary_frames`, `is_parked`, `total_movement`
and `cls` are untouched, no count event is emitted for the rediscovered id
in that call, and the id is not returned as new. No hypothesis restricts
the displacement, so this holds even when the jump from the old centroid to
the new one is at or above the movement threshold. -/
theorem claim_C10 (t : VehicleTracker) (dets : List Detection) (hr : TrackerReachable t) :
    ∀ e ∈ (t.updateFull dets).rEvents,
    (∃ o d, lookupObj t.tracked_objects e.2 = some o ∧ dets.get? e.1 = some d ∧
      ∃ o2, lookupObj (t.updateFull dets).tracker.tracked_objects e.2 = some o2 ∧
        o2.centroid = calculate_centroid d.box ∧ o2.disappeared = 0 ∧
        o2.counted = o.counted ∧ o2.has_moved = o.has_moved ∧
        o2.stationary_frames = o.stationary_frames ∧ o2.is_parked = o.is_parked ∧
        o2.total_movement = o.total_movement ∧ o2.cls = o.cls) ∧
    (∀ c, (e.2, c) ∉ (t.updateFull dets).countEvents) ∧
    e.2 ∉ (t.updateFull dets).new_objects := by
  intro e he
  obtain ⟨evs, hi⟩ := TrackerReachable_TInv t hr
  have sp := updateFull_spec t dets hi.keys_nodup hi.keys_lt
  obtain ⟨hnomr, o, d, ho, hd, hlook⟩ := sp.redisc_spec e he
  refine ⟨⟨o, d, ho, hd, _, hlook, rfl, rfl, rfl, rfl, rfl, rfl, rfl, rfl⟩, ?_, ?_⟩
  · intro c hc
    obtain ⟨mr, hmr, _, hoid, _⟩ := mem_matchCountEvents (t.updateFull dets).mrecs (e.2, c) hc
    exact hnomr mr hmr hoid
  · intro hmem
    rw [sp.new_eq] at hmem
    have h1 := (List.mem_range'_1.mp hmem).1
    have h2 : e.2 ∈ t.tracked_objects.map (fun p => p.1) :=
      List.mem_map.mpr ⟨(e.2, o), mem_of_lookupObj _ _ _ ho, rfl⟩
    have h3 := hi.keys_lt e.2 h2
    omega

/-- Witness for claim C10: the rediscovered car (jump 120, far above the
movement threshold 10) emits no count event for id 0 and id 0 is not
returned as new. -/
theorem claim_C10_witness :
    ((0 : ℕ), VClass.car) ∉ (wTrkGone.updateFull [wDet5]).countEvents ∧
    (0 : ℕ) ∉ (wTrkGone.updateFull [wDet5]).new_objects := by
  have h := claim_C10 wTrkGone [wDet5]
    (TrackerReachable.step _ _ (TrackerReachable.step _ _
      (TrackerReachable.init 100 10 3 5)))
    (0, 0) (by decide)
  exact ⟨h.2.1 VClass.car, h.2.2⟩

/-- Witness for claim C6 at a concrete reachable state and a concrete
one-call trace registering id 0. -/
theorem claim_C6_witness :
    (0 : ℕ) < wTrk1.next_object_id ∧
    ∃ k, ((runTrace (VehicleTracker.init 100 10 3 5) [[wDet1]]).2.map
        (fun r => r.new_objects)).flatten = List.range' 0 k ∧
      (runTrace (VehicleTracker.init 100 10 3 5) [[wDet1]]).1.next_object_id = k ∧
      (((runTrace (VehicleTracker.init 100 10 3 5) [[wDet1]]).2.map
        (fun r => r.new_objects)).flatten).Nodup := by
  constructor
  · exact (claim_C6 100 10 3 5 [[wDet1]]).1 wTrk1
      (TrackerReachable.step _ _ (TrackerReachable.init 100 10 3 5)) 0 (by decide)
  · exact (claim_C6 100 10 3 5 [[wDet1]]).2
